import Mathlib

/-!
Verification of the OpenAPI-to-MCP registration script (register_openapi.py).

The script is embedded shallowly: parsed YAML/JSON documents become values of
an inductive `JSON` type, Python dictionary operations become functions on
association lists, Python exceptions become `Except String`, and the side
effects of the registration run (console prints and outbound HTTP POSTs)
become an explicit event trace produced by a writer-plus-except monad `Run`.
Network responses are supplied by an oracle, one outcome per POST attempt.
-/

namespace ForgeStudio

/-- A parsed YAML/JSON document value.  Object fields are kept as an ordered
association list, matching Python dict insertion order. -/
inductive JSON where
  | null : JSON
  | bool (b : Bool) : JSON
  | num (n : Int) : JSON
  | str (s : String) : JSON
  | arr (elems : List JSON) : JSON
  | obj (fields : List (String × JSON)) : JSON
deriving Repr, Inhabited

/-- Python equality of a document value with a string literal: true exactly
on the equal string. -/
def JSON.isStrVal (j : JSON) (s : String) : Bool :=
  match j with
  | .str t => t == s
  | _ => false

/-- Lookup in an ordered association list (Python `d[k]` / `d.get(k)` on a
dict): the value of the first matching key. -/
def dictGet (d : List (String × JSON)) (k : String) : Option JSON :=
  (d.find? (fun kv => kv.1 == k)).map (fun kv => kv.2)

/-- Python `d[k] = v` on a dict: replace the value in place when the key is
present, append the new pair otherwise. -/
def dictSet (d : List (String × JSON)) (k : String) (v : JSON) : List (String × JSON) :=
  match d with
  | [] => [(k, v)]
  | (k0, v0) :: rest =>
      if k0 == k then (k0, v) :: rest else (k0, v0) :: dictSet rest k v

/-- Python `d.update(e)` on dicts: fold `dictSet` over the entries of `e`. -/
def dictUpdate (d e : List (String × JSON)) : List (String × JSON) :=
  match e with
  | [] => d
  | (k, v) :: rest => dictUpdate (dictSet d k v) rest

/-- Python `k in d` for a dict. -/
def hasKey (d : List (String × JSON)) (k : String) : Bool :=
  d.any (fun kv => kv.1 == k)

/-- Python `str.upper()` (character-wise, as for ASCII method names). -/
def pyUpper (s : String) : String := String.mk (s.data.map Char.toUpper)

/-- Python `str.lower()`. -/
def pyLower (s : String) : String := String.mk (s.data.map Char.toLower)

/-- Python `str.replace(old, new)` for a single-character pattern and
replacement, the only form the script uses. -/
def replaceChar (old new : Char) (s : String) : String :=
  String.mk (s.data.map (fun d => if d = old then new else d))

/-- Python substring test `needle in hay` on strings. -/
def strContains (hay needle : String) : Bool :=
  needle.isEmpty || hay.data.tails.any (fun t => needle.data.isPrefixOf t)

/-- Python truthiness of a parsed document value: `None`, `False`, `0`, the
empty string, the empty list and the empty dict are falsy. -/
def JSON.truthy : JSON → Bool
  | .null => false
  | .bool b => b
  | .num n => n != 0
  | .str s => !s.isEmpty
  | .arr xs => !xs.isEmpty
  | .obj kvs => !kvs.isEmpty

/-- Python `str.rstrip(sep)` specialised to a single character: drop every
trailing occurrence. -/
def stripTrailing (c : Char) (s : String) : String :=
  String.mk ((s.data.reverse.dropWhile (fun d => d = c)).reverse)

/-- `s.rstrip('/')` as used on gateway and base URLs. -/
def stripTrailingSlashes (s : String) : String := stripTrailing '/' s

/-- Python subscript `j[k]` with a string key: a KeyError on a dict missing
the key, a TypeError on anything that is not a dict. -/
def pyIndex (j : JSON) (k : String) : Except String JSON :=
  match j with
  | .obj kvs =>
      match dictGet kvs k with
      | some v => .ok v
      | none => .error ("KeyError: " ++ k)
  | _ => .error "TypeError: value is not subscriptable by a string"

/-- Python `j.get(k, d)`: an AttributeError on anything that is not a dict. -/
def pyGetD (j : JSON) (k : String) (d : JSON) : Except String JSON :=
  match j with
  | .obj kvs => .ok ((dictGet kvs k).getD d)
  | _ => .error "AttributeError: value has no attribute get"

/-- Python `j.get(k)`, whose default is `None`. -/
def pyGetNone (j : JSON) (k : String) : Except String JSON :=
  pyGetD j k .null

/-- Python `k in j` for a string key: key test on dicts, substring test on
strings, element test on lists, a TypeError otherwise. -/
def pyContains (j : JSON) (k : String) : Except String Bool :=
  match j with
  | .obj kvs => .ok (hasKey kvs k)
  | .str s => .ok (strContains s k)
  | .arr xs => .ok (xs.any (fun x => x.isStrVal k))
  | _ => .error "TypeError: argument is not iterable"

/-- Python iteration `for x in j`: the elements of a list, the characters of
a string, the keys of a dict; a TypeError otherwise. -/
def pyIterList (j : JSON) : Except String (List JSON) :=
  match j with
  | .arr xs => .ok xs
  | .str s => .ok (s.data.map (fun c => JSON.str (String.singleton c)))
  | .obj kvs => .ok (kvs.map (fun kv => JSON.str kv.1))
  | _ => .error "TypeError: value is not iterable"

/-- Python `j.items()`: only dicts have it. -/
def pyItems (j : JSON) : Except String (List (String × JSON)) :=
  match j with
  | .obj kvs => .ok kvs
  | _ => .error "AttributeError: value has no attribute items"

/-- Python `len(j)`. -/
def pyLen (j : JSON) : Except String Nat :=
  match j with
  | .str s => .ok s.length
  | .arr xs => .ok xs.length
  | .obj kvs => .ok kvs.length
  | _ => .error "TypeError: value has no len"

/-- Python slicing `j[:100]` as applied to the API description. -/
def pySlice100 (j : JSON) : Except String JSON :=
  match j with
  | .str s => .ok (.str (String.mk (s.data.take 100)))
  | .arr xs => .ok (.arr (xs.take 100))
  | _ => .error "TypeError: value is not subscriptable by a slice"

/-- Coerce to a string, the embedding of contexts where the script requires
an actual Python `str` (dict keys, `.rstrip`, `.lower`). -/
def asStr (j : JSON) : Except String String :=
  match j with
  | .str s => .ok s
  | _ => .error "TypeError: expected a string"

/-- Coerce to a dict, the embedding of contexts requiring a Python dict
(`dict.update` argument). -/
def asObj (j : JSON) : Except String (List (String × JSON)) :=
  match j with
  | .obj kvs => .ok kvs
  | _ => .error "TypeError: expected a dict"

/-- `base_url.rstrip('/')`: an AttributeError when the value is not a
string. -/
def pyRstripSlash (j : JSON) : Except String String :=
  match j with
  | .str s => .ok (stripTrailingSlashes s)
  | _ => .error "AttributeError: value has no attribute rstrip"

/-- `api_name.lower().replace(' ', '-')` from line 191. -/
def pyLowerReplace (j : JSON) : Except String String :=
  match j with
  | .str s => .ok (replaceChar ' ' '-' (pyLower s))
  | _ => .error "AttributeError: value has no attribute lower"

/-- Python `repr` of a parsed document value, used when a non-string value is
interpolated into an f-string. -/
def pyRepr : JSON → String
  | .null => "None"
  | .bool true => "True"
  | .bool false => "False"
  | .num n => toString n
  | .str s => "\x27" ++ s ++ "\x27"
  | .arr xs =>
      "[" ++ String.intercalate ", " (xs.attach.map (fun x => pyRepr x.1)) ++ "]"
  | .obj kvs =>
      "\x7b" ++
        String.intercalate ", "
          (kvs.attach.map (fun kv => "\x27" ++ kv.1.1 ++ "\x27: " ++ pyRepr kv.1.2)) ++
      "\x7d"
decreasing_by
  · have h := List.sizeOf_lt_of_mem x.2
    simp only [JSON.arr.sizeOf_spec]
    omega
  · have h := List.sizeOf_lt_of_mem kv.2
    obtain ⟨⟨k1, v1⟩, hm⟩ := kv
    simp only [Prod.mk.sizeOf_spec] at h
    simp only [JSON.obj.sizeOf_spec]
    omega

/-- Python `str(j)` as used in f-string interpolation. -/
def pyStr : JSON → String
  | .str s => s
  | j => pyRepr j

/-! ## extract_parameters (register_openapi.py lines 51-93)

The schema dict built by `extract_parameters` always has the fixed shape
`{"type": "object", "properties": ..., "required": ...}`; only the
`properties` and `required` entries are mutated, so the intermediate state is
carried as a `ParamSchema` record and rendered to a `JSON` object at the
end. -/

/-- The mutable part of the schema dict built by `extract_parameters`. -/
structure ParamSchema where
  props : List (String × JSON)
  req : List JSON
deriving Repr

/-- Render the schema state to the dict
`{"type": "object", "properties": ..., "required": ...}`. -/
def ParamSchema.toJSON (s : ParamSchema) : JSON :=
  .obj [("type", .str "object"), ("properties", .obj s.props), ("required", .arr s.req)]

/-- Loop body of lines 61-69: handle one entry of `operation['parameters']`,
keeping only parameters whose `in` field equals `"path"`. -/
def procParam (s : ParamSchema) (param : JSON) : Except String ParamSchema := do
  let inv ← pyIndex param "in"
  if inv.isStrVal "path" then
    let nameJ ← pyIndex param "name"
    let param_name ← asStr nameJ
    let pschema ← pyGetD param "schema" (.obj [])
    let ptype ← pyGetD pschema "type" (.str "string")
    let pdesc ← pyGetD param "description" (.str ("Path parameter: " ++ param_name))
    let props := dictSet s.props param_name (.obj [("type", ptype), ("description", pdesc)])
    let preq ← pyGetD param "required" (.bool false)
    let req := if preq.truthy then s.req ++ [.str param_name] else s.req
    pure ⟨props, req⟩
  else
    pure s

/-- `for param in operation['parameters']`. -/
def procParams (s : ParamSchema) : List JSON → Except String ParamSchema
  | [] => .ok s
  | p :: rest => do procParams (← procParam s p) rest

/-- Lines 59-69: the path-parameter phase of `extract_parameters`. -/
def paramsPhase (operation : JSON) (s : ParamSchema) : Except String ParamSchema := do
  if (← pyContains operation "parameters") then
    procParams s (← pyIterList (← pyIndex operation "parameters"))
  else
    pure s

/-- Loop body of lines 75-91: handle one entry of
`operation['requestBody']['content']`. -/
def procContent (s : ParamSchema) (content_type : String) (content : JSON) :
    Except String ParamSchema := do
  if strContains content_type "application/json" then
    if (← pyContains content "schema") then
      let body_schema ← pyIndex content "schema"
      if (← pyContains body_schema "$ref") then
        pure ⟨dictSet s.props "body"
          (.obj [("type", .str "object"),
                 ("description", .str "Request body (see OpenAPI spec for full schema)")]),
          s.req⟩
      else
        let s1 ←
          if (← pyContains body_schema "properties") then do
            let bp ← asObj (← pyIndex body_schema "properties")
            pure ⟨dictUpdate s.props bp, s.req⟩
          else
            pure s
        if (← pyContains body_schema "required") then do
          let br ← pyIterList (← pyIndex body_schema "required")
          pure ⟨s1.props, s1.req ++ br⟩
        else
          pure s1
    else
      pure s
  else
    pure s

/-- `for content_type, content in req_body['content'].items()`. -/
def procContents (s : ParamSchema) : List (String × JSON) → Except String ParamSchema
  | [] => .ok s
  | (ct, c) :: rest => do procContents (← procContent s ct c) rest

/-- Lines 71-91: the request-body phase of `extract_parameters`. -/
def bodyPhase (operation : JSON) (s : ParamSchema) : Except String ParamSchema := do
  if (← pyContains operation "requestBody") then
    let req_body ← pyIndex operation "requestBody"
    if (← pyContains req_body "content") then
      procContents s (← pyItems (← pyIndex req_body "content"))
    else
      pure s
  else
    pure s

/-- Lines 51-93: `extract_parameters(operation, path)`.  The `path` argument
is accepted and unused, as in the source. -/
def extract_parameters (operation : JSON) (path : String) : Except String JSON := do
  let s0 : ParamSchema := ⟨[], []⟩
  let s1 ← paramsPhase operation s0
  let s2 ← bodyPhase operation s1
  pure s2.toJSON

/-! ## Side effects: event traces, the network oracle, and the `Run` monad -/

/-- An observable side effect of the script: a console print, a
`requests.post` to the tools endpoint, a `requests.post` to the servers
endpoint, or a file write. -/
inductive Event where
  | print (line : String) : Event
  | toolPost (url : String) (payload : JSON) : Event
  | serverPost (url : String) (payload : JSON) : Event
  | writeFile (name : String) (content : JSON) : Event
deriving Repr

/-- An HTTP response as seen through the `requests` library. -/
structure HTTPResponse where
  status : Nat
  text : String
  jsonBody : JSON
deriving Repr

/-- Outcome of one `requests.post` call: a response, or an exception raised
by the call itself. -/
inductive NetResult where
  | resp (r : HTTPResponse) : NetResult
  | connErr (msg : String) : NetResult
deriving Repr

/-- The condition under which `requests` treats a status as an HTTP error:
`Response.raise_for_status` raises exactly for 400-599, and `Response.ok` is
defined as `raise_for_status` not raising. -/
def httpError (status : Nat) : Bool := 400 ≤ status && status < 600

/-- `response.ok` from `requests`. -/
def responseOk (r : HTTPResponse) : Bool := !httpError r.status

/-- The script's effectful computations: an accumulated event trace paired
with either a value or a propagating Python exception.  The trace up to the
point of the exception is preserved. -/
def Run (α : Type) := List Event × Except String α

instance : Monad Run where
  pure a := ([], Except.ok a)
  bind x f :=
    match x.2 with
    | .ok a => (x.1 ++ (f a).1, (f a).2)
    | .error e => (x.1, .error e)

/-- Record one event. -/
def emit (e : Event) : Run Unit := ([e], .ok ())

/-- `print(line)`. -/
def pyPrint (line : String) : Run Unit := emit (.print line)

/-- Raise a Python exception. -/
def pyRaise {α : Type} (msg : String) : Run α := ([], .error msg)

/-- Lift an exception-only computation into `Run`. -/
def liftE {α : Type} (r : Except String α) : Run α := ([], r)

/-! ## The OpenAPIToMCP class -/

/-- `OpenAPIToMCP.__init__` (lines 19-25) stores the gateway URL with
trailing slashes removed, the token, and the headers dict. -/
structure OpenAPIToMCP where
  gateway_url : String
  bearer_token : String
  headers : List (String × String)
deriving Repr

/-- The constructor `OpenAPIToMCP(gateway_url, bearer_token)`. -/
def OpenAPIToMCP.init (gateway_url bearer_token : String) : OpenAPIToMCP :=
  { gateway_url := stripTrailingSlashes gateway_url
    bearer_token := bearer_token
    headers := [("Authorization", "Bearer " ++ bearer_token),
                ("Content-Type", "application/json")] }

/-- Lines 95-104: `register_tool` wraps the tool dict as `{"tool": ...}`,
POSTs it to the tools endpoint, raises on an HTTP error status and returns
the response JSON otherwise.  `r` is the oracle outcome for this POST. -/
def register_tool (c : OpenAPIToMCP) (tool_data : JSON) (r : NetResult) : Run JSON := do
  let wrapped_data := JSON.obj [("tool", tool_data)]
  emit (.toolPost (c.gateway_url ++ "/tools") wrapped_data)
  match r with
  | .connErr msg => pyRaise msg
  | .resp resp =>
      if httpError resp.status then
        pyRaise ("HTTPError: " ++ toString resp.status)
      else
        pure resp.jsonBody

/-- Lines 106-127: `create_virtual_server` POSTs the server dict, prints the
status code and response body when the response is not `ok`, then calls
`raise_for_status` and returns the response JSON. -/
def create_virtual_server (c : OpenAPIToMCP) (name : String) (description : JSON)
    (tool_ids : List JSON) (r : NetResult) : Run JSON := do
  let server_data := JSON.obj
    [("server", JSON.obj
      [("name", .str name),
       ("description", description),
       ("associatedTools", .arr tool_ids)])]
  emit (.serverPost (c.gateway_url ++ "/servers") server_data)
  match r with
  | .connErr msg => pyRaise msg
  | .resp resp => do
      if !responseOk resp then
        pyPrint ("❌ Server creation failed with status " ++ toString resp.status)
        pyPrint ("Response: " ++ resp.text)
      if httpError resp.status then
        pyRaise ("HTTPError: " ++ toString resp.status)
      else
        pure resp.jsonBody

/-! ## The registration loop (lines 151-183)

The nested `for` loops are embedded as structural recursion over the entries
of `spec['paths']` and of each path item.  The loop state is the growing
`tool_ids` list together with the index of the next network-oracle entry;
one oracle entry is consumed per `requests.post` to the tools endpoint. -/

/-- The HTTP verbs accepted at line 153. -/
def allowedMethods : List String := ["GET", "POST", "PUT", "DELETE", "PATCH"]

/-- Lines 156-173: derive the operation id and the tool dict for one
path/method pair.  Everything here sits outside the `try`, so a failure
propagates out of the whole registration run. -/
def opToolData (base_url : JSON) (path method : String) (operation : JSON) :
    Except String (JSON × JSON) := do
  let operation_id ← pyGetD operation "operationId"
      (.str (method ++ "_" ++ replaceChar '/' '_' path))
  let summary ← pyGetD operation "summary" (.str "")
  let description ← pyGetD operation "description" summary
  let burl ← pyRstripSlash base_url
  let full_url := burl ++ path
  let input_schema ← extract_parameters operation path
  let tool_data := JSON.obj
    [("name", operation_id),
     ("url", .str full_url),
     ("description", if description.truthy then description else summary),
     ("integration_type", .str "REST"),
     ("request_type", .str (pyUpper method)),
     ("input_schema", input_schema)]
  pure (operation_id, tool_data)

/-- Lines 177-183: the `try` body and handler.  The POST, the identifier
extraction `result.get('id') or result.get('tool_id')` and the append all sit
inside the `try`; any exception is caught, printed and swallowed. -/
def tryRegister (c : OpenAPIToMCP) (tool_data : JSON) (r : NetResult)
    (tool_ids : List JSON) : Run (List JSON) :=
  let attempt : Run (List JSON) := do
    let result ← register_tool c tool_data r
    let idv ← liftE (pyGetNone result "id")
    let tidv ← liftE (pyGetNone result "tool_id")
    let tool_id := if idv.truthy then idv else tidv
    pyPrint ("     ✓ Created with ID: " ++ pyStr tool_id)
    pure (tool_ids ++ [tool_id])
  match attempt with
  | (evs, .ok ids) => (evs, .ok ids)
  | (evs, .error e) => (evs ++ [.print ("     ✗ Failed: " ++ e)], .ok tool_ids)

/-- One iteration of the inner loop (lines 152-183) for a single
path/method pair.  The state is `(tool_ids, n)` where `n` indexes the next
oracle entry. -/
def procOp (c : OpenAPIToMCP) (base_url : JSON) (net : Nat → NetResult)
    (path method : String) (operation : JSON) (st : List JSON × Nat) :
    Run (List JSON × Nat) :=
  if pyUpper method ∈ allowedMethods then do
    let (operation_id, tool_data) ← liftE (opToolData base_url path method operation)
    pyPrint ("  🔹 Registering: " ++ pyStr operation_id ++
      " (" ++ pyUpper method ++ " " ++ path ++ ")")
    let ids ← tryRegister c tool_data (net st.2) st.1
    pure (ids, st.2 + 1)
  else
    pure st

/-- The inner loop `for method, operation in methods.items()`. -/
def procMethods (c : OpenAPIToMCP) (base_url : JSON) (net : Nat → NetResult)
    (path : String) : List (String × JSON) → List JSON × Nat → Run (List JSON × Nat)
  | [], st => pure st
  | (method, operation) :: rest, st => do
      let st' ← procOp c base_url net path method operation st
      procMethods c base_url net path rest st'

/-- The outer loop `for path, methods in paths.items()`. -/
def procPaths (c : OpenAPIToMCP) (base_url : JSON) (net : Nat → NetResult) :
    List (String × JSON) → List JSON × Nat → Run (List JSON × Nat)
  | [], st => pure st
  | (path, methods) :: rest, st => do
      let ms ← liftE (pyItems methods)
      let st' ← procMethods c base_url net path ms st
      procPaths c base_url net rest st'

/-- Line 135: `spec.get('info', {}).get('title', 'api-server')`. -/
def specApiName (spec : JSON) : Except String JSON := do
  pyGetD (← pyGetD spec "info" (.obj [])) "title" (.str "api-server")

/-- Line 137: `spec.get('info', {}).get('description', '')`. -/
def specApiDescription (spec : JSON) : Except String JSON := do
  pyGetD (← pyGetD spec "info" (.obj [])) "description" (.str "")

/-- Line 138: `spec.get('servers', [{}])[0].get('url', 'http://localhost:8000')`. -/
def specBaseUrl (spec : JSON) : Except String JSON := do
  let servers ← pyGetD spec "servers" (.arr [.obj []])
  match servers with
  | .arr [] => Except.error "IndexError: list index out of range"
  | .arr (s0 :: _) => pyGetD s0 "url" (.str "http://localhost:8000")
  | _ => Except.error "TypeError: value is not subscriptable by an integer"

/-- Line 146: `spec.get('paths', {})`. -/
def specPathsDict (spec : JSON) : Except String JSON :=
  pyGetD spec "paths" (.obj [])

/-- The entries iterated by the outer loop at line 151. -/
def pathsItems (spec : JSON) : Except String (List (String × JSON)) := do
  pyItems (← specPathsDict spec)

/-- Lines 134-135: keep the `api_name` argument when given, else fall back
to the spec title. -/
def apiNameOf (spec : JSON) (api_name_arg : Option String) : Except String JSON :=
  match api_name_arg with
  | some s => .ok (.str s)
  | none => specApiName spec

/-- Lines 129-203: `register_openapi_spec`.  The parsed spec document is
passed directly (`parse_openapi_spec` is file I/O); `spec_path` is kept for
the line-131 print.  `net` supplies the outcome of each tool POST in order
and `snet` the outcome of the single server POST. -/
def register_openapi_spec (c : OpenAPIToMCP) (spec_path : String) (spec : JSON)
    (api_name_arg : Option String) (net : Nat → NetResult) (snet : NetResult) :
    Run JSON := do
  pyPrint ("📖 Loading OpenAPI spec from: " ++ spec_path)
  let api_name ← liftE (apiNameOf spec api_name_arg)
  let api_description ← liftE (specApiDescription spec)
  let base_url ← liftE (specBaseUrl spec)
  pyPrint ("📦 API: " ++ pyStr api_name)
  pyPrint ("🌐 Base URL: " ++ pyStr base_url)
  let descSlice ← liftE (pySlice100 api_description)
  pyPrint ("📄 Description: " ++ pyStr descSlice ++ "...")
  pyPrint ""
  let paths ← liftE (specPathsDict spec)
  let nPaths ← liftE (pyLen paths)
  pyPrint ("🔧 Registering " ++ toString nPaths ++ " endpoints as MCP tools...")
  pyPrint ""
  let items ← liftE (pyItems paths)
  let (tool_ids, _) ← procPaths c base_url net items ([], 0)
  pyPrint ""
  pyPrint ("✅ Registered " ++ toString tool_ids.length ++ " tools")
  pyPrint ""
  pyPrint "🖥️  Creating virtual MCP server..."
  let server_name ← liftE (pyLowerReplace api_name)
  let server ← create_virtual_server c server_name api_description tool_ids snet
  let sid ← liftE (pyGetNone server "id")
  let suuid ← liftE (pyGetNone server "uuid")
  let server_uuid := if sid.truthy then sid else suuid
  pyPrint ("✅ Virtual server created: " ++ pyStr server_uuid)
  pure (JSON.obj
    [("server_uuid", server_uuid),
     ("tool_ids", .arr tool_ids),
     ("tool_count", .num tool_ids.length),
     ("api_name", api_name),
     ("base_url", base_url)])

/-! ## main (lines 206-269) -/

/-- Python falsiness of `os.getenv('MCPGATEWAY_BEARER_TOKEN')`: unset
(`None`) or the empty string. -/
def tokenMissing : Option String → Bool
  | none => true
  | some s => s.isEmpty

/-- The `"=" * 50` separator line. -/
def sepLine : String := String.mk (List.replicate 50 '=')

/-- The `try` block of `main` (lines 236-263): run the registration, print
the summary and save the configuration file. -/
def mainTry (gatewayURL : String) (converter : OpenAPIToMCP) (spec_path : String)
    (spec : JSON) (net : Nat → NetResult) (snet : NetResult) : Run Unit := do
  let result ← register_openapi_spec converter spec_path spec none net snet
  pyPrint ""
  pyPrint sepLine
  pyPrint "🎉 Registration Complete!"
  pyPrint sepLine
  pyPrint ""
  pyPrint "📡 Streamable HTTP Endpoint:"
  let suuid ← liftE (pyIndex result "server_uuid")
  pyPrint ("   " ++ gatewayURL ++ "/servers/" ++ pyStr suuid ++ "/mcp")
  pyPrint ""
  let tcount ← liftE (pyIndex result "tool_count")
  pyPrint ("📊 Registered Tools: " ++ pyStr tcount)
  pyPrint ""
  let aname ← liftE (pyIndex result "api_name")
  let config := JSON.obj
    [("server_uuid", suuid),
     ("gateway_url", .str gatewayURL),
     ("streamable_http_endpoint", .str (gatewayURL ++ "/servers/" ++ pyStr suuid ++ "/mcp")),
     ("tool_count", tcount),
     ("api_name", aname)]
  emit (.writeFile "mcp_server_config.json" config)
  pyPrint ("💾 Configuration saved to: mcp_server_config.json")

/-- Lines 206-269: `main`.  Environment, argv, filesystem and spec parsing
are supplied as inputs; the result is the full event trace and the process
exit status (0 for a normal return, 1 for `sys.exit(1)`). -/
def main_run (gateway_env bearer_env : Option String) (argv : List String)
    (fileExists : String → Bool) (specOf : String → JSON)
    (net : Nat → NetResult) (snet : NetResult) : List Event × Nat :=
  let gatewayURL := gateway_env.getD "http://localhost:4444"
  if tokenMissing bearer_env then
    ([.print "❌ Error: MCPGATEWAY_BEARER_TOKEN environment variable not set",
      .print "   Run: export MCPGATEWAY_BEARER_TOKEN=<your-token>"], 1)
  else
    if argv.length < 2 then
      ([.print "Usage: python register_openapi.py <openapi-spec.yaml>",
        .print "",
        .print "Environment variables:",
        .print "  GATEWAY_URL - MCP Gateway URL (default: http://localhost:4444)",
        .print "  MCPGATEWAY_BEARER_TOKEN - JWT bearer token for authentication"], 1)
    else
      let spec_path := argv.getD 1 ""
      if !fileExists spec_path then
        ([.print ("❌ Error: File not found: " ++ spec_path)], 1)
      else
        let preEvents : List Event :=
          [.print "🚀 OpenAPI to MCP Gateway Registration", .print sepLine, .print ""]
        let converter := OpenAPIToMCP.init gatewayURL (bearer_env.getD "")
        let (evs, r) := mainTry gatewayURL converter spec_path (specOf spec_path) net snet
        match r with
        | .ok _ => (preEvents ++ evs, 0)
        | .error e =>
            (preEvents ++ evs ++
              [.print ("❌ Error: " ++ e), .print "Traceback (most recent call last):"], 1)

/-! ## Trace observations used by the claims -/

/-- Is this event a POST to the tools endpoint? -/
def Event.isToolPost : Event → Bool
  | .toolPost _ _ => true
  | _ => false

/-- Is this event a POST to the servers endpoint? -/
def Event.isServerPost : Event → Bool
  | .serverPost _ _ => true
  | _ => false

/-- The tool POSTs of a trace, in order. -/
def toolPosts (evs : List Event) : List Event := evs.filter Event.isToolPost

/-- The server POSTs of a trace, in order. -/
def serverPosts (evs : List Event) : List Event := evs.filter Event.isServerPost

/-- The identifier the `try` block at lines 177-183 appends for one oracle
outcome: `none` when the attempt raises (HTTP error, connection error, or a
non-dict response body), otherwise `result.get('id') or result.get('tool_id')`
(which may be the embedded `None`). -/
def successId (r : NetResult) : Option JSON :=
  match r with
  | .connErr _ => none
  | .resp resp =>
      if httpError resp.status then none
      else
        match pyGetNone resp.jsonBody "id", pyGetNone resp.jsonBody "tool_id" with
        | .ok a, .ok b => some (if a.truthy then a else b)
        | _, _ => none

/-- The identifiers collected by `count` consecutive POST attempts starting
at oracle index `start`. -/
def collectIds (net : Nat → NetResult) (start count : Nat) : List JSON :=
  (List.range' start count).filterMap (fun k => successId (net k))

/-- Number of method entries of one path item that pass the verb filter at
line 153. -/
def countValidOpsM (ms : List (String × JSON)) : Nat :=
  ms.countP (fun mo => decide (pyUpper mo.1 ∈ allowedMethods))

/-- Number of operations over all path items that pass the verb filter,
assuming each path item is a dict (the loop aborts otherwise). -/
def countValidOpsP : List (String × JSON) → Nat
  | [] => 0
  | (_, methods) :: rest =>
      (match pyItems methods with
       | .ok ms => countValidOpsM ms
       | .error _ => 0) + countValidOpsP rest

/-- The `(path, method, operation)` triples that pass the verb filter in one
path item, in iteration order. -/
def validOpsM (path : String) (ms : List (String × JSON)) :
    List (String × String × JSON) :=
  (ms.filter (fun mo => decide (pyUpper mo.1 ∈ allowedMethods))).map
    (fun mo => (path, mo.1, mo.2))

/-- The `(path, method, operation)` triples that pass the verb filter over
all path items, in iteration order. -/
def validOpsP : List (String × JSON) → List (String × String × JSON)
  | [] => []
  | (path, methods) :: rest =>
      (match pyItems methods with
       | .ok ms => validOpsM path ms
       | .error _ => []) ++ validOpsP rest

/-! ## Basic lemmas about the `Run` monad and traces -/

@[simp]
theorem run_pure {α : Type} (a : α) : (pure a : Run α) = ([], Except.ok a) := rfl

@[simp]
theorem run_bind_def {α β : Type} (x : Run α) (f : α → Run β) :
    (x >>= f) =
      (match x.2 with
       | Except.ok a => (x.1 ++ (f a).1, (f a).2)
       | Except.error e => (x.1, Except.error e)) := by
  obtain ⟨ev, r⟩ := x
  cases r <;> rfl

@[simp]
theorem emit_eq (e : Event) : emit e = ([e], Except.ok ()) := rfl

@[simp]
theorem pyPrint_eq (s : String) : pyPrint s = ([Event.print s], Except.ok ()) := rfl

@[simp]
theorem liftE_eq {α : Type} (r : Except String α) : liftE r = ([], r) := rfl

theorem run_bind_eq_ok {α β : Type} {x : Run α} {f : α → Run β} {evs : List Event} {b : β}
    (h : (x >>= f) = (evs, Except.ok b)) :
    ∃ ev1 a ev2, x = (ev1, Except.ok a) ∧ f a = (ev2, Except.ok b) ∧ evs = ev1 ++ ev2 := by
  rw [run_bind_def] at h
  obtain ⟨ev1, r⟩ := x
  cases r with
  | ok a =>
      have h' : ((ev1 ++ (f a).1, (f a).2) : List Event × Except String β)
          = (evs, Except.ok b) := h
      have h1 : ev1 ++ (f a).1 = evs := congrArg Prod.fst h'
      have h2 : (f a).2 = Except.ok b := congrArg Prod.snd h'
      refine ⟨ev1, a, (f a).1, rfl, ?_, h1.symm⟩
      rw [← h2]
      exact rfl
  | error e =>
      have h' : ((ev1, Except.error e) : List Event × Except String β)
          = (evs, Except.ok b) := h
      exact absurd (congrArg Prod.snd h') (by simp)

/-- A trace fragment containing no POST events. -/
def noPosts (evs : List Event) : Bool :=
  evs.all (fun e => !e.isToolPost && !e.isServerPost)

@[simp]
theorem toolPosts_nil : toolPosts [] = [] := rfl

@[simp]
theorem serverPosts_nil : serverPosts [] = [] := rfl

@[simp]
theorem toolPosts_append (l1 l2 : List Event) :
    toolPosts (l1 ++ l2) = toolPosts l1 ++ toolPosts l2 := List.filter_append ..

@[simp]
theorem serverPosts_append (l1 l2 : List Event) :
    serverPosts (l1 ++ l2) = serverPosts l1 ++ serverPosts l2 := List.filter_append ..

@[simp]
theorem toolPosts_print (s : String) (l : List Event) :
    toolPosts (Event.print s :: l) = toolPosts l := rfl

@[simp]
theorem serverPosts_print (s : String) (l : List Event) :
    serverPosts (Event.print s :: l) = serverPosts l := rfl

@[simp]
theorem toolPosts_toolPost (u : String) (p : JSON) (l : List Event) :
    toolPosts (Event.toolPost u p :: l) = Event.toolPost u p :: toolPosts l := rfl

@[simp]
theorem serverPosts_toolPost (u : String) (p : JSON) (l : List Event) :
    serverPosts (Event.toolPost u p :: l) = serverPosts l := rfl

@[simp]
theorem toolPosts_serverPost (u : String) (p : JSON) (l : List Event) :
    toolPosts (Event.serverPost u p :: l) = toolPosts l := rfl

@[simp]
theorem serverPosts_serverPost (u : String) (p : JSON) (l : List Event) :
    serverPosts (Event.serverPost u p :: l) = Event.serverPost u p :: serverPosts l := rfl

@[simp]
theorem toolPosts_writeFile (n : String) (p : JSON) (l : List Event) :
    toolPosts (Event.writeFile n p :: l) = toolPosts l := rfl

@[simp]
theorem serverPosts_writeFile (n : String) (p : JSON) (l : List Event) :
    serverPosts (Event.writeFile n p :: l) = serverPosts l := rfl

theorem toolPosts_of_noPosts {l : List Event} (h : noPosts l = true) : toolPosts l = [] := by
  induction l with
  | nil => rfl
  | cons e rest ih =>
      simp [noPosts, List.all_cons] at h
      cases e <;> simp_all [toolPosts, Event.isToolPost, Event.isServerPost, noPosts]

theorem serverPosts_of_noPosts {l : List Event} (h : noPosts l = true) : serverPosts l = [] := by
  induction l with
  | nil => rfl
  | cons e rest ih =>
      simp [noPosts, List.all_cons] at h
      cases e <;> simp_all [serverPosts, Event.isServerPost, Event.isToolPost, noPosts]

/-! ## Characterisation of one registration attempt -/

/-- The print event the `try` block of lines 177-183 produces after the
POST, for each oracle outcome. -/
def tryTail (r : NetResult) : List Event :=
  match r with
  | .connErr m => [.print ("     ✗ Failed: " ++ m)]
  | .resp resp =>
      if httpError resp.status then
        [.print ("     ✗ Failed: " ++ ("HTTPError: " ++ toString resp.status))]
      else
        match pyGetNone resp.jsonBody "id", pyGetNone resp.jsonBody "tool_id" with
        | .ok a, .ok b =>
            [.print ("     ✓ Created with ID: " ++ pyStr (if a.truthy then a else b))]
        | _, _ => [.print ("     ✗ Failed: " ++ "AttributeError: value has no attribute get")]

theorem noPosts_tryTail (r : NetResult) : noPosts (tryTail r) = true := by
  cases r with
  | connErr m => rfl
  | resp resp =>
      rw [tryTail]
      cases h : httpError resp.status
      · simp only [Bool.false_eq_true, if_false]
        cases hb : resp.jsonBody <;> simp [pyGetNone, pyGetD, noPosts, Event.isToolPost,
          Event.isServerPost]
      · rfl

/-- The `try` block always returns normally, emits the POST first, and
appends exactly the identifier described by `successId`. -/
theorem tryRegister_eq (c : OpenAPIToMCP) (td : JSON) (r : NetResult) (ids : List JSON) :
    tryRegister c td r ids =
      (Event.toolPost (c.gateway_url ++ "/tools") (JSON.obj [("tool", td)]) :: tryTail r,
       Except.ok (ids ++ (successId r).toList)) := by
  cases r with
  | connErr m => simp [tryRegister, register_tool, tryTail, successId, pyRaise]
  | resp resp =>
      cases h : httpError resp.status
      · cases hb : resp.jsonBody <;>
          simp [tryRegister, register_tool, tryTail, successId, pyRaise, h, hb,
            pyGetNone, pyGetD]
      · simp [tryRegister, register_tool, tryTail, successId, pyRaise, h]

/-! ## Characterisation of the loop -/

/-- A skipped method key (line 153-154): no events, state unchanged. -/
theorem procOp_skip (c : OpenAPIToMCP) (burl : JSON) (net : Nat → NetResult)
    (path method : String) (op : JSON) (st : List JSON × Nat)
    (h : pyUpper method ∉ allowedMethods) :
    procOp c burl net path method op st = ([], Except.ok st) := by
  simp [procOp, h]

/-- A processed method key: the behaviour of one loop iteration, as a
function of `opToolData` and the oracle outcome. -/
theorem procOp_valid (c : OpenAPIToMCP) (burl : JSON) (net : Nat → NetResult)
    (path method : String) (op : JSON) (st : List JSON × Nat)
    (h : pyUpper method ∈ allowedMethods) :
    procOp c burl net path method op st =
      match opToolData burl path method op with
      | .error e => ([], Except.error e)
      | .ok (oid, td) =>
          (Event.print ("  🔹 Registering: " ++ pyStr oid ++
              " (" ++ pyUpper method ++ " " ++ path ++ ")") ::
            Event.toolPost (c.gateway_url ++ "/tools") (JSON.obj [("tool", td)]) ::
            tryTail (net st.2),
           Except.ok (st.1 ++ (successId (net st.2)).toList, st.2 + 1)) := by
  cases hot : opToolData burl path method op with
  | error e => simp [procOp, h, hot]
  | ok p =>
      obtain ⟨oid, td⟩ := p
      simp [procOp, h, hot, tryRegister_eq]

@[simp]
theorem collectIds_zero (net : Nat → NetResult) (s : Nat) : collectIds net s 0 = [] := rfl

theorem collectIds_succ (net : Nat → NetResult) (s n : Nat) :
    collectIds net s (n + 1) =
      (successId (net s)).toList ++ collectIds net (s + 1) n := by
  show List.filterMap _ (s :: List.range' (s + 1) n) = _
  rw [List.filterMap_cons]
  cases successId (net s) <;> simp [collectIds]

theorem collectIds_split (net : Nat → NetResult) (s m n : Nat) :
    collectIds net s (m + n) = collectIds net s m ++ collectIds net (s + m) n := by
  induction m generalizing s with
  | zero => simp
  | succ m ih =>
      rw [Nat.succ_add, collectIds_succ, ih (s + 1), collectIds_succ]
      simp [List.append_assoc, Nat.add_assoc, Nat.add_comm 1 m]

@[simp]
theorem countValidOpsM_nil : countValidOpsM [] = 0 := rfl

theorem countValidOpsM_cons (m : String) (op : JSON) (rest : List (String × JSON)) :
    countValidOpsM ((m, op) :: rest) =
      (if pyUpper m ∈ allowedMethods then 1 else 0) + countValidOpsM rest := by
  simp only [countValidOpsM, List.countP_cons]
  by_cases hm : pyUpper m ∈ allowedMethods <;> simp [hm] <;> omega

@[simp]
theorem validOpsM_nil (path : String) : validOpsM path [] = [] := rfl

theorem validOpsM_cons (path m : String) (op : JSON) (rest : List (String × JSON)) :
    validOpsM path ((m, op) :: rest) =
      (if pyUpper m ∈ allowedMethods then [(path, m, op)] else []) ++ validOpsM path rest := by
  simp only [validOpsM, List.filter_cons]
  by_cases hm : pyUpper m ∈ allowedMethods <;> simp [hm]

/-- The per-POST relation used to state that the loop emits exactly one tool
POST per valid operation, in order, each carrying the tool dict derived from
that operation. -/
def PostMatches (c : OpenAPIToMCP) (burl : JSON)
    (pmo : String × String × JSON) (ev : Event) : Prop :=
  ∃ oid td,
    opToolData burl pmo.1 pmo.2.1 pmo.2.2 = Except.ok (oid, td) ∧
    ev = Event.toolPost (c.gateway_url ++ "/tools") (JSON.obj [("tool", td)])

/-- Master lemma for the inner loop: when it returns normally, the oracle
index advances by one per valid method, the collected identifiers extend by
exactly the successful ones, no server POST happens, and the tool POSTs match
the valid operations one for one, in order. -/
theorem procMethods_ok (c : OpenAPIToMCP) (burl : JSON) (net : Nat → NetResult)
    (path : String) (ms : List (String × JSON)) :
    ∀ (st : List JSON × Nat) (evs : List Event) (st' : List JSON × Nat),
    procMethods c burl net path ms st = (evs, Except.ok st') →
    st'.2 = st.2 + countValidOpsM ms ∧
    st'.1 = st.1 ++ collectIds net st.2 (countValidOpsM ms) ∧
    serverPosts evs = [] ∧
    List.Forall₂ (PostMatches c burl) (validOpsM path ms) (toolPosts evs) := by
  induction ms with
  | nil =>
      intro st evs st' h
      simp only [procMethods, run_pure, Prod.mk.injEq, Except.ok.injEq] at h
      obtain ⟨rfl, rfl⟩ := h
      simp
  | cons mo rest ih =>
      intro st evs st' h
      obtain ⟨method, op⟩ := mo
      simp only [procMethods] at h
      obtain ⟨ev1, st1, ev2, hOp, hRest, rfl⟩ := run_bind_eq_ok h
      obtain ⟨hn, hids, hsp, hfa⟩ := ih st1 ev2 st' hRest
      by_cases hm : pyUpper method ∈ allowedMethods
      · rw [procOp_valid c burl net path method op st hm] at hOp
        cases hot : opToolData burl path method op with
        | error e => rw [hot] at hOp; exact absurd (congrArg Prod.snd hOp) (by simp)
        | ok p =>
            obtain ⟨oid, td⟩ := p
            rw [hot] at hOp
            have hev1 : ev1 = _ := (congrArg Prod.fst hOp).symm
            have hst1 : st1 = _ := (Except.ok.inj (congrArg Prod.snd hOp)).symm
            subst hev1; subst hst1
            refine ⟨?_, ?_, ?_, ?_⟩
            · rw [hn, countValidOpsM_cons]; simp [hm]; omega
            · rw [hids, countValidOpsM_cons]
              simp only [hm, if_true]
              rw [Nat.add_comm 1 (countValidOpsM rest), collectIds_succ]
              simp
            · rw [serverPosts_append]
              simp [hsp, serverPosts_of_noPosts (noPosts_tryTail (net st.2))]
            · rw [toolPosts_append, validOpsM_cons]
              simp only [hm, if_true, List.singleton_append]
              simp only [toolPosts_print, toolPosts_toolPost,
                toolPosts_of_noPosts (noPosts_tryTail (net st.2))]
              exact List.Forall₂.cons ⟨oid, td, hot, rfl⟩ hfa
      · rw [procOp_skip c burl net path method op st hm] at hOp
        have hev1 : ev1 = _ := (congrArg Prod.fst hOp).symm
        have hst1 : st1 = _ := (Except.ok.inj (congrArg Prod.snd hOp)).symm
        subst hev1; subst hst1
        refine ⟨?_, ?_, ?_, ?_⟩
        · rw [hn, countValidOpsM_cons]; simp [hm]
        · rw [hids, countValidOpsM_cons]; simp [hm]
        · simpa using hsp
        · rw [validOpsM_cons]
          simpa [hm] using hfa

@[simp]
theorem countValidOpsP_nil : countValidOpsP [] = 0 := rfl

@[simp]
theorem validOpsP_nil : validOpsP [] = [] := rfl

/-- Master lemma for the outer loop, mirroring `procMethods_ok`. -/
theorem procPaths_ok (c : OpenAPIToMCP) (burl : JSON) (net : Nat → NetResult)
    (items : List (String × JSON)) :
    ∀ (st : List JSON × Nat) (evs : List Event) (st' : List JSON × Nat),
    procPaths c burl net items st = (evs, Except.ok st') →
    st'.2 = st.2 + countValidOpsP items ∧
    st'.1 = st.1 ++ collectIds net st.2 (countValidOpsP items) ∧
    serverPosts evs = [] ∧
    List.Forall₂ (PostMatches c burl) (validOpsP items) (toolPosts evs) := by
  induction items with
  | nil =>
      intro st evs st' h
      simp only [procPaths, run_pure, Prod.mk.injEq, Except.ok.injEq] at h
      obtain ⟨rfl, rfl⟩ := h
      simp
  | cons pm rest ih =>
      intro st evs st' h
      obtain ⟨path, methods⟩ := pm
      simp only [procPaths] at h
      obtain ⟨ev0, ms, ev12, hItems, hRest0, rfl⟩ := run_bind_eq_ok h
      obtain ⟨ev1, st1, ev2, hMs, hRest, rfl⟩ := run_bind_eq_ok hRest0
      cases hpi : pyItems methods with
      | error e =>
          rw [hpi] at hItems
          exact absurd (congrArg Prod.snd hItems) (by simp)
      | ok ms' =>
          rw [hpi] at hItems
          have hev0 : ev0 = _ := (congrArg Prod.fst hItems).symm
          have hms : ms = _ := (Except.ok.inj (congrArg Prod.snd hItems)).symm
          subst hev0; subst hms
          obtain ⟨hn1, hids1, hsp1, hfa1⟩ := procMethods_ok c burl net path ms st ev1 st1 hMs
          obtain ⟨hn2, hids2, hsp2, hfa2⟩ := ih st1 ev2 st' hRest
          have hcnt : countValidOpsP ((path, methods) :: rest) =
              countValidOpsM ms + countValidOpsP rest := by
            simp [countValidOpsP, hpi]
          have hvo : validOpsP ((path, methods) :: rest) =
              validOpsM path ms ++ validOpsP rest := by
            simp [validOpsP, hpi]
          refine ⟨?_, ?_, ?_, ?_⟩
          · rw [hcnt, hn2, hn1]; omega
          · rw [hcnt, hids2, hids1, hn1, collectIds_split]
            simp
          · simp [hsp1, hsp2]
          · rw [hvo]
            simp only [List.nil_append, toolPosts_append]
            exact List.rel_append hfa1 hfa2

/-- The server payload dict built at lines 108-114. -/
def serverPayload (name : String) (description : JSON) (tool_ids : List JSON) : JSON :=
  JSON.obj
    [("server", JSON.obj
      [("name", .str name),
       ("description", description),
       ("associatedTools", .arr tool_ids)])]

/-- `create_virtual_server` always emits exactly one server POST (and no
tool POST), whatever the oracle outcome. -/
theorem create_virtual_server_events (c : OpenAPIToMCP) (name : String) (desc : JSON)
    (ids : List JSON) (r : NetResult) :
    toolPosts (create_virtual_server c name desc ids r).1 = [] ∧
    serverPosts (create_virtual_server c name desc ids r).1 =
      [Event.serverPost (c.gateway_url ++ "/servers") (serverPayload name desc ids)] := by
  cases r with
  | connErr m => exact ⟨rfl, rfl⟩
  | resp resp =>
      cases h : httpError resp.status <;>
        simp [create_virtual_server, serverPayload, responseOk, h, pyRaise]

/-- A computation that ended in an exception cannot equal a normal result. -/
theorem run_err_ok_absurd {α : Type} {C : Prop} {l evs : List Event} {e : String} {res : α}
    (h : ((l, Except.error e) : List Event × Except String α) = (evs, Except.ok res)) : C :=
  Except.noConfusion (congrArg Prod.snd h)

/-- Full characterisation of a normal return of `register_openapi_spec`:
the loop ran over the path items, the collected identifiers are exactly the
successful ones in oracle order, the tool POSTs match the valid operations
one for one, exactly one server POST was made and it references exactly the
collected identifiers, and the returned summary embeds them. -/
theorem register_ok_char {c : OpenAPIToMCP} {sp : String} {spec : JSON}
    {an : Option String} {net : Nat → NetResult} {snet : NetResult}
    {evs : List Event} {res : JSON}
    (h : register_openapi_spec c sp spec an net snet = (evs, Except.ok res)) :
    ∃ api_name adesc base_url items ids sname suuid,
      specApiDescription spec = Except.ok adesc ∧
      specBaseUrl spec = Except.ok base_url ∧
      pathsItems spec = Except.ok items ∧
      pyLowerReplace api_name = Except.ok sname ∧
      ids = collectIds net 0 (countValidOpsP items) ∧
      List.Forall₂ (PostMatches c base_url) (validOpsP items) (toolPosts evs) ∧
      serverPosts evs =
        [Event.serverPost (c.gateway_url ++ "/servers") (serverPayload sname adesc ids)] ∧
      res = JSON.obj
        [("server_uuid", suuid),
         ("tool_ids", .arr ids),
         ("tool_count", .num ids.length),
         ("api_name", api_name),
         ("base_url", base_url)] := by
  rw [register_openapi_spec] at h
  cases hA : apiNameOf spec an with
  | error e => rw [hA] at h; simp at h; exact run_err_ok_absurd h
  | ok api_name =>
  rw [hA] at h
  cases hD : specApiDescription spec with
  | error e => rw [hD] at h; simp at h; exact run_err_ok_absurd h
  | ok adesc =>
  rw [hD] at h
  cases hB : specBaseUrl spec with
  | error e => rw [hB] at h; simp at h; exact run_err_ok_absurd h
  | ok base_url =>
  rw [hB] at h
  simp only [run_bind_def, liftE_eq, pyPrint_eq, run_pure, List.nil_append,
    List.cons_append, List.append_nil] at h
  cases hSl : pySlice100 adesc with
  | error e => rw [hSl] at h; simp at h; exact run_err_ok_absurd h
  | ok descSlice =>
  rw [hSl] at h
  cases hP : specPathsDict spec with
  | error e => rw [hP] at h; simp at h; exact run_err_ok_absurd h
  | ok paths =>
  rw [hP] at h
  simp only [run_bind_def, liftE_eq, pyPrint_eq, run_pure, List.nil_append,
    List.cons_append, List.append_nil] at h
  cases hL : pyLen paths with
  | error e => rw [hL] at h; simp at h; exact run_err_ok_absurd h
  | ok nPaths =>
  rw [hL] at h
  cases hI : pyItems paths with
  | error e => rw [hI] at h; simp at h; exact run_err_ok_absurd h
  | ok items =>
  rw [hI] at h
  simp only [run_bind_def, liftE_eq, pyPrint_eq, run_pure, List.nil_append,
    List.cons_append, List.append_nil] at h
  rcases hLoop : procPaths c base_url net items ([], 0) with ⟨loopEvs, lr⟩
  rw [hLoop] at h
  cases lr with
  | error e => simp at h; exact run_err_ok_absurd h
  | ok stPair =>
  obtain ⟨ids, n⟩ := stPair
  simp only [run_bind_def, liftE_eq, pyPrint_eq, run_pure, List.nil_append,
    List.cons_append, List.append_nil] at h
  cases hSN : pyLowerReplace api_name with
  | error e => rw [hSN] at h; simp at h; exact run_err_ok_absurd h
  | ok sname =>
  rw [hSN] at h
  simp only [run_bind_def, liftE_eq, pyPrint_eq, run_pure, List.nil_append,
    List.cons_append, List.append_nil] at h
  rcases hCV : create_virtual_server c sname adesc ids snet with ⟨cvEvs, cvr⟩
  rw [hCV] at h
  cases cvr with
  | error e => simp at h; exact run_err_ok_absurd h
  | ok server =>
  simp only [run_bind_def, liftE_eq, pyPrint_eq, run_pure, List.nil_append,
    List.cons_append, List.append_nil] at h
  cases hSid : pyGetNone server "id" with
  | error e => rw [hSid] at h; simp at h; exact run_err_ok_absurd h
  | ok sid =>
  rw [hSid] at h
  cases hSuuid : pyGetNone server "uuid" with
  | error e => rw [hSuuid] at h; simp at h; exact run_err_ok_absurd h
  | ok suuid =>
  rw [hSuuid] at h
  simp only [run_bind_def, liftE_eq, pyPrint_eq, run_pure, List.nil_append,
    List.cons_append, List.append_nil] at h
  have hevs : evs = _ := (congrArg Prod.fst h).symm
  have hres : res = _ := (Except.ok.inj (congrArg Prod.snd h)).symm
  obtain ⟨hn2, hids2, hsp2, hfa2⟩ :=
    procPaths_ok c base_url net items ([], 0) loopEvs (ids, n) hLoop
  have hn2' : n = 0 + countValidOpsP items := hn2
  have hids2' : ids = [] ++ collectIds net 0 (countValidOpsP items) := hids2
  obtain ⟨hcvTool, hcvServer⟩ := create_virtual_server_events c sname adesc ids snet
  rw [hCV] at hcvTool hcvServer
  refine ⟨api_name, adesc, base_url, items, ids, sname,
    (if sid.truthy then sid else suuid), rfl, rfl, ?_, hSN, ?_, ?_, ?_, ?_⟩
  · rw [pathsItems, hP]
    exact hI
  · simpa using hids2'
  · rw [hevs]
    simp only [toolPosts_append, toolPosts_print, toolPosts_nil, hcvTool,
      List.append_nil, List.nil_append]
    exact hfa2
  · rw [hevs]
    simp only [serverPosts_append, serverPosts_print, serverPosts_nil,
      hcvServer, hsp2, List.append_nil, List.nil_append]
  · rw [hres]

/-! ## Dictionary lemmas -/

@[simp]
theorem dictGet_nil (k : String) : dictGet [] k = none := rfl

theorem dictGet_eq_none_of_hasKey_false {d : List (String × JSON)} {k : String}
    (h : hasKey d k = false) : dictGet d k = none := by
  induction d with
  | nil => rfl
  | cons kv rest ih =>
      simp only [hasKey, List.any_cons, Bool.or_eq_false_iff] at h
      simp only [dictGet, List.find?_cons, h.1]
      exact ih (by simpa [hasKey] using h.2)

theorem hasKey_true_of_dictGet {d : List (String × JSON)} {k : String} {v : JSON}
    (h : dictGet d k = some v) : hasKey d k = true := by
  by_contra hc
  rw [dictGet_eq_none_of_hasKey_false (Bool.eq_false_iff.mpr hc)] at h
  exact Option.noConfusion h

theorem dictSet_of_hasKey_false {d : List (String × JSON)} {k : String} (v : JSON)
    (h : hasKey d k = false) : dictSet d k v = d ++ [(k, v)] := by
  induction d with
  | nil => rfl
  | cons kv rest ih =>
      simp only [hasKey, List.any_cons, Bool.or_eq_false_iff] at h
      simp only [dictSet, h.1, if_false, List.cons_append, Bool.false_eq_true]
      rw [ih (by simpa [hasKey] using h.2)]

theorem hasKey_append (d e : List (String × JSON)) (k : String) :
    hasKey (d ++ e) k = (hasKey d k || hasKey e k) := by
  simp [hasKey, List.any_append]

@[simp]
theorem except_bind_ok {α β : Type} (a : α) (f : α → Except String β) :
    (Except.ok a >>= f) = f a := rfl

@[simp]
theorem except_bind_error {α β : Type} (e : String) (f : α → Except String β) :
    ((Except.error e : Except String α) >>= f) = Except.error e := rfl

@[simp]
theorem except_pure {α : Type} (a : α) : (pure a : Except String α) = Except.ok a := rfl

/-! ## Characterisation of opToolData -/

/-- Inversion of a successful `opToolData`: each `.get` succeeded and the
tool dict has exactly the shape of lines 166-173. -/
theorem opToolData_char {burl : JSON} {path method : String} {op : JSON} {oid td : JSON}
    (h : opToolData burl path method op = Except.ok (oid, td)) :
    ∃ summary description burlS ischema,
      pyGetD op "operationId" (.str (method ++ "_" ++ replaceChar '/' '_' path))
        = Except.ok oid ∧
      pyGetD op "summary" (.str "") = Except.ok summary ∧
      pyGetD op "description" summary = Except.ok description ∧
      pyRstripSlash burl = Except.ok burlS ∧
      extract_parameters op path = Except.ok ischema ∧
      td = JSON.obj
        [("name", oid),
         ("url", .str (burlS ++ path)),
         ("description", if description.truthy then description else summary),
         ("integration_type", .str "REST"),
         ("request_type", .str (pyUpper method)),
         ("input_schema", ischema)] := by
  rw [opToolData] at h
  cases h1 : pyGetD op "operationId" (.str (method ++ "_" ++ replaceChar '/' '_' path)) with
  | error e => rw [h1] at h; exact Except.noConfusion h
  | ok oid0 =>
  rw [h1] at h
  simp only [except_bind_ok] at h
  cases h2 : pyGetD op "summary" (.str "") with
  | error e => rw [h2] at h; exact Except.noConfusion h
  | ok summary =>
  rw [h2] at h
  simp only [except_bind_ok] at h
  cases h3 : pyGetD op "description" summary with
  | error e => rw [h3] at h; exact Except.noConfusion h
  | ok description =>
  rw [h3] at h
  simp only [except_bind_ok] at h
  cases h4 : pyRstripSlash burl with
  | error e => rw [h4] at h; exact Except.noConfusion h
  | ok burlS =>
  rw [h4] at h
  simp only [except_bind_ok] at h
  cases h5 : extract_parameters op path with
  | error e => rw [h5] at h; exact Except.noConfusion h
  | ok ischema =>
  rw [h5] at h
  simp only [except_bind_ok, except_pure, Except.ok.injEq, Prod.mk.injEq] at h
  obtain ⟨hoid, htd⟩ := h
  subst hoid
  exact ⟨summary, description, burlS, ischema, rfl, rfl, h3, rfl, rfl, htd.symm⟩

/-! ## Path-parameter extraction: statement vocabulary and lemmas -/

/-- Does this parameter object have `in` equal to `"path"`? -/
def paramIsPath (p : JSON) : Bool :=
  match p with
  | .obj kvs =>
      match dictGet kvs "in" with
      | some v => v.isStrVal "path"
      | none => false
  | _ => false

/-- The parameter name, for a well-formed parameter object. -/
def paramName (p : JSON) : String :=
  match p with
  | .obj kvs =>
      match dictGet kvs "name" with
      | some (.str s) => s
      | _ => ""
  | _ => ""

/-- The schema type the script copies for a path parameter:
`param.get('schema', {}).get('type', 'string')`. -/
def paramType (p : JSON) : JSON :=
  match p with
  | .obj kvs =>
      match dictGet kvs "schema" with
      | some (.obj skvs) => (dictGet skvs "type").getD (.str "string")
      | _ => .str "string"
  | _ => .str "string"

/-- The description the script copies for a path parameter:
`param.get('description', f'Path parameter: {name}')`. -/
def paramDescr (p : JSON) : JSON :=
  match p with
  | .obj kvs => (dictGet kvs "description").getD (.str ("Path parameter: " ++ paramName p))
  | _ => .str ("Path parameter: " ++ paramName p)

/-- The `required` flag of a parameter whose `required` field is boolean or
absent. -/
def paramReq (p : JSON) : Bool :=
  match p with
  | .obj kvs =>
      match dictGet kvs "required" with
      | some (.bool b) => b
      | _ => false
  | _ => false

/-- Well-formedness of one entry of `operation['parameters']` as the claims
presuppose it: a dict with an `in` field; when located in the path, a string
`name`, a `schema` that is absent or a dict, and a `required` flag that is
absent or boolean. -/
def paramWF (p : JSON) : Bool :=
  match p with
  | .obj kvs =>
      (dictGet kvs "in").isSome &&
      (!paramIsPath p ||
        ((match dictGet kvs "name" with | some (.str _) => true | _ => false) &&
         (match dictGet kvs "schema" with
          | none => true
          | some (.obj _) => true
          | some _ => false) &&
         (match dictGet kvs "required" with
          | none => true
          | some (.bool _) => true
          | some _ => false)))
  | _ => false

/-- The properties the claims predict for the path parameters of an
operation, in order. -/
def expectedProps (ps : List JSON) : List (String × JSON) :=
  (ps.filter paramIsPath).map
    (fun p => (paramName p, JSON.obj [("type", paramType p), ("description", paramDescr p)]))

/-- The required-name list the claims predict: exactly the path parameters
whose required flag is set. -/
def expectedReq (ps : List JSON) : List JSON :=
  (ps.filter (fun p => paramIsPath p && paramReq p)).map (fun p => JSON.str (paramName p))

theorem procParam_skip {p : JSON} (s : ParamSchema)
    (hwf : paramWF p = true) (hnp : paramIsPath p = false) :
    procParam s p = Except.ok s := by
  cases p with
  | obj kvs =>
      simp only [paramWF] at hwf
      obtain ⟨inv, hin⟩ := Option.isSome_iff_exists.mp (Bool.and_elim_left hwf)
      simp only [paramIsPath, hin] at hnp
      simp [procParam, pyIndex, hin, hnp]
  | null => exact absurd hwf (by simp [paramWF])
  | bool b => exact absurd hwf (by simp [paramWF])
  | num n => exact absurd hwf (by simp [paramWF])
  | str s0 => exact absurd hwf (by simp [paramWF])
  | arr xs => exact absurd hwf (by simp [paramWF])

theorem procParam_path {p : JSON} (s : ParamSchema)
    (hwf : paramWF p = true) (hp : paramIsPath p = true)
    (hfresh : hasKey s.props (paramName p) = false) :
    procParam s p = Except.ok
      ⟨s.props ++ [(paramName p, JSON.obj [("type", paramType p), ("description", paramDescr p)])],
       s.req ++ (if paramReq p then [JSON.str (paramName p)] else [])⟩ := by
  cases p with
  | obj kvs =>
      simp only [paramWF, hp, Bool.not_true, Bool.false_or, Bool.and_eq_true] at hwf
      obtain ⟨hinSome, ⟨hname, hschema⟩, hreq⟩ := hwf
      obtain ⟨inv, hin⟩ := Option.isSome_iff_exists.mp hinSome
      simp only [paramIsPath, hin] at hp
      cases hnm : dictGet kvs "name" with
      | none => rw [hnm] at hname; exact absurd hname (by simp)
      | some nv =>
      cases nv with
      | str nm =>
          rw [procParam]
          simp only [pyIndex, hin, hp, if_true]
          have hpn : paramName (JSON.obj kvs) = nm := by simp [paramName, hnm]
          cases hsch : dictGet kvs "schema" with
          | none =>
              simp only [asStr, hnm, pyGetD, hsch, Option.getD_none, Option.getD_some]
              simp only [except_bind_ok]
              cases hrq : dictGet kvs "required" with
              | none =>
                  simp [dictSet_of_hasKey_false _ (hpn ▸ hfresh), hpn, paramType, hsch,
                    paramDescr, hnm, paramReq, hrq, JSON.truthy, hp]
              | some rv =>
                  rw [hrq] at hreq
                  cases rv with
                  | bool b =>
                      simp [dictSet_of_hasKey_false _ (hpn ▸ hfresh), hpn, paramType, hsch,
                        paramDescr, hnm, paramReq, hrq, JSON.truthy, hp]
                      cases b <;> simp [JSON.truthy]
                  | null => exact absurd hreq (by simp)
                  | num n => exact absurd hreq (by simp)
                  | str s0 => exact absurd hreq (by simp)
                  | arr xs => exact absurd hreq (by simp)
                  | obj kvs0 => exact absurd hreq (by simp)
          | some sv =>
              rw [hsch] at hschema
              cases sv with
              | obj skvs =>
                  simp only [asStr, hnm, pyGetD, hsch, Option.getD_some]
                  simp only [except_bind_ok]
                  cases hrq : dictGet kvs "required" with
                  | none =>
                      simp [dictSet_of_hasKey_false _ (hpn ▸ hfresh), hpn, paramType, hsch,
                        paramDescr, hnm, paramReq, hrq, JSON.truthy, hp]
                  | some rv =>
                      rw [hrq] at hreq
                      cases rv with
                      | bool b =>
                          simp [dictSet_of_hasKey_false _ (hpn ▸ hfresh), hpn, paramType, hsch,
                            paramDescr, hnm, paramReq, hrq, JSON.truthy, hp]
                          cases b <;> simp [JSON.truthy]
                      | null => exact absurd hreq (by simp)
                      | num n => exact absurd hreq (by simp)
                      | str s0 => exact absurd hreq (by simp)
                      | arr xs => exact absurd hreq (by simp)
                      | obj kvs0 => exact absurd hreq (by simp)
              | null => exact absurd hschema (by simp)
              | bool b => exact absurd hschema (by simp)
              | num n => exact absurd hschema (by simp)
              | str s0 => exact absurd hschema (by simp)
              | arr xs => exact absurd hschema (by simp)
      | null => rw [hnm] at hname; exact absurd hname (by simp)
      | bool b => rw [hnm] at hname; exact absurd hname (by simp)
      | num n => rw [hnm] at hname; exact absurd hname (by simp)
      | arr xs => rw [hnm] at hname; exact absurd hname (by simp)
      | obj kvs0 => rw [hnm] at hname; exact absurd hname (by simp)
  | null => exact absurd hwf (by simp [paramWF])
  | bool b => exact absurd hwf (by simp [paramWF])
  | num n => exact absurd hwf (by simp [paramWF])
  | str s0 => exact absurd hwf (by simp [paramWF])
  | arr xs => exact absurd hwf (by simp [paramWF])

theorem hasKey_singleton (k k' : String) (v : JSON) :
    hasKey [(k, v)] k' = (k == k') := by
  simp [hasKey]

/-- The parameter loop, for well-formed parameters with distinct path-located
names: appends exactly the expected properties and required names. -/
theorem procParams_char (ps : List JSON) :
    ∀ acc : ParamSchema,
    (∀ p ∈ ps, paramWF p = true) →
    ((ps.filter paramIsPath).map paramName).Nodup →
    (∀ p ∈ ps, paramIsPath p = true → hasKey acc.props (paramName p) = false) →
    procParams acc ps =
      Except.ok ⟨acc.props ++ expectedProps ps, acc.req ++ expectedReq ps⟩ := by
  induction ps with
  | nil =>
      intro acc _ _ _
      simp [procParams, expectedProps, expectedReq]
  | cons p rest ih =>
      intro acc hwf hnd hfresh
      have hwfp : paramWF p = true := hwf p (List.mem_cons_self p rest)
      by_cases hp : paramIsPath p = true
      · rw [procParams, procParam_path acc hwfp hp
          (hfresh p (List.mem_cons_self p rest) hp), except_bind_ok]
        have hndr : ((rest.filter paramIsPath).map paramName).Nodup := by
          rw [List.filter_cons_of_pos (by simpa using hp), List.map_cons] at hnd
          exact hnd.of_cons
        have hpnotin : paramName p ∉ (rest.filter paramIsPath).map paramName := by
          rw [List.filter_cons_of_pos (by simpa using hp), List.map_cons] at hnd
          exact (List.nodup_cons.mp hnd).1
        have hfresh' : ∀ q ∈ rest, paramIsPath q = true →
            hasKey (acc.props ++
              [(paramName p, JSON.obj [("type", paramType p), ("description", paramDescr p)])])
              (paramName q) = false := by
          intro q hq hqp
          rw [hasKey_append, hasKey_singleton]
          have h1 : hasKey acc.props (paramName q) = false :=
            hfresh q (List.mem_cons_of_mem p hq) hqp
          have h2 : paramName p ≠ paramName q := by
            intro hc
            exact hpnotin (hc ▸ List.mem_map_of_mem paramName (List.mem_filter.mpr ⟨hq, hqp⟩))
          simp [h1, h2]
        rw [ih _ (fun q hq => hwf q (List.mem_cons_of_mem p hq)) hndr hfresh']
        have heP : expectedProps (p :: rest) =
            (paramName p, JSON.obj [("type", paramType p), ("description", paramDescr p)]) ::
              expectedProps rest := by
          simp [expectedProps, List.filter_cons_of_pos (by simpa using hp)]
        have heR : expectedReq (p :: rest) =
            (if paramReq p then [JSON.str (paramName p)] else []) ++ expectedReq rest := by
          cases hr : paramReq p <;>
            simp [expectedReq, List.filter_cons, hp, hr]
        rw [heP, heR]
        simp
      · have hp' : paramIsPath p = false := Bool.eq_false_iff.mpr hp
        rw [procParams, procParam_skip acc hwfp hp', except_bind_ok]
        have heP : expectedProps (p :: rest) = expectedProps rest := by
          simp [expectedProps, List.filter_cons_of_neg (by simpa using hp')]
        have heR : expectedReq (p :: rest) = expectedReq rest := by
          simp [expectedReq, List.filter_cons, hp']
        rw [ih acc (fun q hq => hwf q (List.mem_cons_of_mem p hq))
          (by rwa [List.filter_cons_of_neg (by simpa using hp')] at hnd)
          (fun q hq => hfresh q (List.mem_cons_of_mem p hq)), heP, heR]

/-- Line 60 taking the false branch: no `parameters` key. -/
theorem paramsPhase_none {okvs : List (String × JSON)} (s : ParamSchema)
    (h : hasKey okvs "parameters" = false) :
    paramsPhase (.obj okvs) s = Except.ok s := by
  simp [paramsPhase, pyContains, h]

/-- Lines 60-61 with a `parameters` list present. -/
theorem paramsPhase_char {okvs : List (String × JSON)} {ps : List JSON} (s : ParamSchema)
    (hpar : dictGet okvs "parameters" = some (.arr ps)) :
    paramsPhase (.obj okvs) s = procParams s ps := by
  simp [paramsPhase, pyContains, hasKey_true_of_dictGet hpar, pyIndex, hpar, pyIterList]

/-- Line 72 taking the false branch: no `requestBody` key. -/
theorem bodyPhase_none {okvs : List (String × JSON)} (s : ParamSchema)
    (h : hasKey okvs "requestBody" = false) :
    bodyPhase (.obj okvs) s = Except.ok s := by
  simp [bodyPhase, pyContains, h]

/-- Lines 72-91 for a single JSON content entry whose schema is a dict
without `$ref` and with dict `properties` and list `required`: merge both
into the running schema. -/
theorem bodyPhase_merge {okvs rkvs ckvs : List (String × JSON)} {ct : String}
    {bs bp : List (String × JSON)} {br : List JSON} (s : ParamSchema)
    (hrb : dictGet okvs "requestBody" = some (.obj rkvs))
    (hct : dictGet rkvs "content" = some (.obj [(ct, .obj ckvs)]))
    (hjson : strContains ct "application/json" = true)
    (hsch : dictGet ckvs "schema" = some (.obj bs))
    (hnoref : hasKey bs "$ref" = false)
    (hbp : dictGet bs "properties" = some (.obj bp))
    (hbr : dictGet bs "required" = some (.arr br)) :
    bodyPhase (.obj okvs) s = Except.ok ⟨dictUpdate s.props bp, s.req ++ br⟩ := by
  rw [bodyPhase]
  simp only [pyContains, hasKey_true_of_dictGet hrb, except_bind_ok, if_true]
  simp only [pyIndex, hrb, hct, hasKey_true_of_dictGet hct, except_bind_ok, if_true,
    pyItems]
  rw [procContents, procContent]
  simp only [hjson, if_true, pyContains, hasKey_true_of_dictGet hsch, except_bind_ok,
    if_true, pyIndex, hsch, hnoref, Bool.false_eq_true, if_false,
    hasKey_true_of_dictGet hbp, hbp, asObj, hasKey_true_of_dictGet hbr, hbr, pyIterList]
  simp [procContents]

/-- Lines 72-91 for a single JSON content entry whose schema contains
`$ref`: substitute the single opaque `body` placeholder. -/
theorem bodyPhase_ref {okvs rkvs ckvs bs : List (String × JSON)} {ct : String}
    (s : ParamSchema)
    (hrb : dictGet okvs "requestBody" = some (.obj rkvs))
    (hct : dictGet rkvs "content" = some (.obj [(ct, .obj ckvs)]))
    (hjson : strContains ct "application/json" = true)
    (hsch : dictGet ckvs "schema" = some (.obj bs))
    (href : hasKey bs "$ref" = true) :
    bodyPhase (.obj okvs) s = Except.ok
      ⟨dictSet s.props "body"
        (.obj [("type", .str "object"),
               ("description", .str "Request body (see OpenAPI spec for full schema)")]),
       s.req⟩ := by
  rw [bodyPhase]
  simp only [pyContains, hasKey_true_of_dictGet hrb, except_bind_ok, if_true]
  simp only [pyIndex, hrb, hct, hasKey_true_of_dictGet hct, except_bind_ok, if_true,
    pyItems]
  rw [procContents, procContent]
  simp only [hjson, if_true, pyContains, hasKey_true_of_dictGet hsch, except_bind_ok,
    if_true, pyIndex, hsch, href]
  simp [procContents]

theorem collectIds_length_all_some (net : Nat → NetResult)
    (hnet : ∀ k, (successId (net k)).isSome) :
    ∀ (n s : Nat), (collectIds net s n).length = n := by
  intro n
  induction n with
  | zero => intro s; rfl
  | succ m ih =>
      intro s
      rw [collectIds_succ]
      obtain ⟨v, hv⟩ := Option.isSome_iff_exists.mp (hnet s)
      simp [hv, ih (s + 1)]

theorem collectIds_length_countP (net : Nat → NetResult) :
    ∀ (n s : Nat), (collectIds net s n).length =
      (List.range' s n).countP (fun j => (successId (net j)).isSome) := by
  intro n
  induction n with
  | zero => intro s; rfl
  | succ m ih =>
      intro s
      rw [collectIds_succ]
      have hr : List.range' s (m + 1) = s :: List.range' (s + 1) m := rfl
      rw [hr, List.countP_cons]
      cases hv : successId (net s) <;> simp [hv, ih (s + 1)]

theorem mem_collectIds {net : Nat → NetResult} {v : JSON} {k n : Nat}
    (hk : k < n) (hv : successId (net k) = some v) : v ∈ collectIds net 0 n := by
  rw [collectIds]
  exact List.mem_filterMap.mpr ⟨k, List.mem_range'_1.mpr ⟨Nat.zero_le k, by omega⟩, hv⟩

theorem validOpsM_length (path : String) (ms : List (String × JSON)) :
    (validOpsM path ms).length = countValidOpsM ms := by
  simp [validOpsM, countValidOpsM, List.countP_eq_length_filter]

theorem validOpsP_length (items : List (String × JSON)) :
    (validOpsP items).length = countValidOpsP items := by
  induction items with
  | nil => rfl
  | cons pm rest ih =>
      obtain ⟨path, methods⟩ := pm
      cases hpi : pyItems methods <;>
        simp [validOpsP, countValidOpsP, hpi, validOpsM_length, ih]

/-- Does this oracle outcome make the POST raise (a connection error, or a
status that `raise_for_status` rejects)? -/
def postRaises : NetResult → Bool
  | .connErr _ => true
  | .resp rr => httpError rr.status

theorem successId_none_of_postRaises {r : NetResult} (h : postRaises r = true) :
    successId r = none := by
  cases r with
  | connErr m => rfl
  | resp rr => simp [postRaises] at h; simp [successId, h]

/-! ## Claim theorems -/

/-- C5: when the bearer-token environment variable is unset or empty, `main`
terminates with exit status 1 after printing the two error lines, and the
trace contains no tool POST and no server POST (no network call). -/
theorem main_aborts_without_token (gw b : Option String) (argv : List String)
    (fe : String → Bool) (so : String → JSON) (net : Nat → NetResult) (snet : NetResult)
    (hb : tokenMissing b = true) :
    main_run gw b argv fe so net snet =
      ([Event.print "❌ Error: MCPGATEWAY_BEARER_TOKEN environment variable not set",
        Event.print "   Run: export MCPGATEWAY_BEARER_TOKEN=<your-token>"], 1) ∧
    (main_run gw b argv fe so net snet).2 ≠ 0 ∧
    toolPosts (main_run gw b argv fe so net snet).1 = [] ∧
    serverPosts (main_run gw b argv fe so net snet).1 = [] := by
  have h : main_run gw b argv fe so net snet =
      ([Event.print "❌ Error: MCPGATEWAY_BEARER_TOKEN environment variable not set",
        Event.print "   Run: export MCPGATEWAY_BEARER_TOKEN=<your-token>"], 1) := by
    rw [main_run]
    simp [hb]
  exact ⟨h, by rw [h]; simp, by rw [h]; rfl, by rw [h]; rfl⟩

/-- Witness for C5: the unset-token case on a concrete environment. -/
theorem main_aborts_without_token_witness :
    tokenMissing none = true ∧
    (main_run none none ["register_openapi.py"] (fun _ => true) (fun _ => JSON.null)
        (fun _ => NetResult.connErr "down") (NetResult.connErr "down")).2 ≠ 0 :=
  ⟨rfl,
   (main_aborts_without_token none none ["register_openapi.py"] (fun _ => true)
      (fun _ => JSON.null) (fun _ => NetResult.connErr "down") (NetResult.connErr "down")
      rfl).2.1⟩

/-- C6: a server-creation response that is not successful makes
`create_virtual_server` print the status code and the response body and then
raise, so it never returns normally. -/
theorem create_virtual_server_failure_surfaces (c : OpenAPIToMCP) (name : String)
    (desc : JSON) (ids : List JSON) (status : Nat) (text : String) (body : JSON)
    (h : httpError status = true) :
    create_virtual_server c name desc ids (.resp ⟨status, text, body⟩) =
      ([Event.serverPost (c.gateway_url ++ "/servers") (serverPayload name desc ids),
        Event.print ("❌ Server creation failed with status " ++ toString status),
        Event.print ("Response: " ++ text)],
       Except.error ("HTTPError: " ++ toString status)) := by
  simp [create_virtual_server, serverPayload, responseOk, h, pyRaise]

/-- Witness for C6: a concrete 500 response. -/
theorem create_virtual_server_failure_surfaces_witness :
    httpError 500 = true ∧
    create_virtual_server (OpenAPIToMCP.init "http://gw" "t") "s" (JSON.str "d") []
        (.resp ⟨500, "boom", JSON.null⟩) =
      ([Event.serverPost ("http://gw" ++ "/servers") (serverPayload "s" (JSON.str "d") []),
        Event.print ("❌ Server creation failed with status " ++ toString 500),
        Event.print ("Response: " ++ "boom")],
       Except.error ("HTTPError: " ++ toString 500)) :=
  ⟨rfl,
   create_virtual_server_failure_surfaces (OpenAPIToMCP.init "http://gw" "t") "s"
     (JSON.str "d") [] 500 "boom" JSON.null rfl⟩

/-- C9: an operation without `operationId` gets the tool name
`method ++ "_" ++ path-with-slashes-replaced-by-underscores`, with the
method as iterated (not uppercased). -/
theorem tool_name_defaults_from_method_and_path (burl : JSON) (path method : String)
    (okvs : List (String × JSON)) (oid td : JSON)
    (hnoid : hasKey okvs "operationId" = false)
    (h : opToolData burl path method (.obj okvs) = Except.ok (oid, td)) :
    oid = .str (method ++ "_" ++ replaceChar '/' '_' path) ∧
    ∃ fields, td = JSON.obj fields ∧
      dictGet fields "name" = some (.str (method ++ "_" ++ replaceChar '/' '_' path)) := by
  obtain ⟨summary, description, burlS, ischema, h1, _h2, _h3, _h4, _h5, htd⟩ :=
    opToolData_char h
  rw [pyGetD, dictGet_eq_none_of_hasKey_false hnoid] at h1
  have hoid : oid = .str (method ++ "_" ++ replaceChar '/' '_' path) :=
    (Except.ok.inj h1).symm
  subst hoid
  subst htd
  exact ⟨rfl, _, rfl, rfl⟩

/-- The concrete tool dict of the C9 witness operation. -/
def witnessToolData : JSON :=
  JSON.obj
    [("name", JSON.str "get__pets_{id}"),
     ("url", JSON.str "http://b/pets/{id}"),
     ("description", JSON.str "s"),
     ("integration_type", JSON.str "REST"),
     ("request_type", JSON.str "GET"),
     ("input_schema",
      JSON.obj
        [("type", JSON.str "object"),
         ("properties", JSON.obj []),
         ("required", JSON.arr [])])]

/-- Witness for C9: a GET operation on `/pets/{id}` with no operationId
gets the name `get__pets_{id}`. -/
theorem tool_name_defaults_witness :
    hasKey [("summary", JSON.str "s")] "operationId" = false ∧
    JSON.str "get__pets_{id}" = .str ("get" ++ "_" ++ replaceChar '/' '_' "/pets/{id}") :=
  ⟨rfl,
   (tool_name_defaults_from_method_and_path (JSON.str "http://b") "/pets/{id}" "get"
      [("summary", JSON.str "s")] (JSON.str "get__pets_{id}") witnessToolData
      rfl (by rfl)).1⟩

/-- C10: trailing slashes are stripped before use: the constructor stores
the gateway URL without trailing slashes, the tool and server POSTs go to
exactly `gateway_url ++ "/tools"` and `gateway_url ++ "/servers"`, and each
tool dict's target URL is exactly the stripped base URL concatenated with
the path. -/
theorem urls_strip_trailing_slashes :
    (∀ g t, (OpenAPIToMCP.init g t).gateway_url = stripTrailingSlashes g) ∧
    (∀ c td r, (register_tool c td r).1.head? =
      some (Event.toolPost (c.gateway_url ++ "/tools") (JSON.obj [("tool", td)]))) ∧
    (∀ c name desc ids r, (create_virtual_server c name desc ids r).1.head? =
      some (Event.serverPost (c.gateway_url ++ "/servers") (serverPayload name desc ids))) ∧
    (∀ (burl path method : String) (op oid td : JSON),
      opToolData (.str burl) path method op = Except.ok (oid, td) →
      ∃ fields, td = JSON.obj fields ∧
        dictGet fields "url" = some (.str (stripTrailingSlashes burl ++ path))) := by
  refine ⟨fun g t => rfl, fun c td r => rfl, fun c name desc ids r => rfl, ?_⟩
  intro burl path method op oid td h
  obtain ⟨summary, description, burlS, ischema, _h1, _h2, _h3, h4, _h5, htd⟩ :=
    opToolData_char h
  have hb : burlS = stripTrailingSlashes burl := (Except.ok.inj h4).symm
  subst hb
  subst htd
  exact ⟨_, rfl, rfl⟩

/-- Witness for C10: a gateway URL and base URL with trailing slashes. -/
theorem urls_strip_trailing_slashes_witness :
    (OpenAPIToMCP.init "http://gw:4444///" "t").gateway_url
        = stripTrailingSlashes "http://gw:4444///" ∧
    opToolData (.str "http://b/") "/pets" "get" (.obj []) =
      Except.ok (.str ("get" ++ "_" ++ replaceChar '/' '_' "/pets"),
        JSON.obj
          [("name", .str ("get" ++ "_" ++ replaceChar '/' '_' "/pets")),
           ("url", .str "http://b/pets"),
           ("description", .str ""),
           ("integration_type", .str "REST"),
           ("request_type", .str "GET"),
           ("input_schema",
            JSON.obj
              [("type", .str "object"),
               ("properties", JSON.obj []),
               ("required", JSON.arr [])])]) ∧
    (∃ fields,
      JSON.obj
        [("name", JSON.str ("get" ++ "_" ++ replaceChar '/' '_' "/pets")),
         ("url", .str "http://b/pets"),
         ("description", .str ""),
         ("integration_type", .str "REST"),
         ("request_type", .str "GET"),
         ("input_schema",
          JSON.obj
            [("type", .str "object"),
             ("properties", JSON.obj []),
             ("required", JSON.arr [])])] = JSON.obj fields ∧
      dictGet fields "url" = some (.str (stripTrailingSlashes "http://b/" ++ "/pets"))) :=
  ⟨urls_strip_trailing_slashes.1 "http://gw:4444///" "t",
   rfl,
   urls_strip_trailing_slashes.2.2.2 "http://b/" "/pets" "get" (JSON.obj []) _ _ rfl⟩

/-- C4: for an operation whose `parameters` list is well formed and has
distinct path-parameter names and no request body, `extract_parameters`
emits one property per path parameter — named after it, typed from its
schema with default `"string"`, with a description — and the required list
is exactly the path parameters whose required flag is set. -/
theorem extract_parameters_path_params (okvs : List (String × JSON)) (ps : List JSON)
    (path : String)
    (hpar : dictGet okvs "parameters" = some (.arr ps))
    (hnob : hasKey okvs "requestBody" = false)
    (hwf : ∀ p ∈ ps, paramWF p = true)
    (hnd : ((ps.filter paramIsPath).map paramName).Nodup) :
    extract_parameters (.obj okvs) path =
      Except.ok (ParamSchema.toJSON ⟨expectedProps ps, expectedReq ps⟩) := by
  rw [extract_parameters, paramsPhase_char ⟨[], []⟩ hpar,
    procParams_char ps ⟨[], []⟩ hwf hnd (fun p _ _ => rfl), except_bind_ok,
    bodyPhase_none _ hnob]
  rfl

/-- The C4 witness parameter: one required path parameter named `id`. -/
def witnessParam : JSON :=
  JSON.obj [("name", .str "id"), ("in", .str "path"), ("required", .bool true),
    ("schema", .obj [("type", .str "integer")]), ("description", .str "the pet id")]

/-- Witness for C4: an operation with exactly one required path parameter
marks exactly that parameter required. -/
theorem extract_parameters_path_params_witness :
    (dictGet [("parameters", JSON.arr [witnessParam])] "parameters"
        = some (.arr [witnessParam])) ∧
    (∀ p ∈ [witnessParam], paramWF p = true) ∧
    extract_parameters (.obj [("parameters", JSON.arr [witnessParam])]) "/pets/{id}" =
      Except.ok (ParamSchema.toJSON ⟨expectedProps [witnessParam], expectedReq [witnessParam]⟩) ∧
    expectedReq [witnessParam] = [JSON.str "id"] := by
  refine ⟨rfl, ?_, ?_, rfl⟩
  · intro p hp
    simp only [List.mem_singleton] at hp
    subst hp
    rfl
  · exact extract_parameters_path_params [("parameters", JSON.arr [witnessParam])]
      [witnessParam] "/pets/{id}" rfl rfl
      (by intro p hp; simp only [List.mem_singleton] at hp; subst hp; rfl)
      (by decide)

/-- C3: for an operation with a single JSON request-body content entry, a
schema without `$ref` has its `properties` dict-merged and its `required`
list appended into the derived schema, and a schema with `$ref` produces
exactly the single opaque `body: object` placeholder instead. -/
theorem extract_parameters_request_body (okvs rkvs ckvs bs : List (String × JSON))
    (ct : String) (path : String) (s1 : ParamSchema)
    (hpp : paramsPhase (.obj okvs) ⟨[], []⟩ = Except.ok s1)
    (hrb : dictGet okvs "requestBody" = some (.obj rkvs))
    (hct : dictGet rkvs "content" = some (.obj [(ct, .obj ckvs)]))
    (hjson : strContains ct "application/json" = true)
    (hsch : dictGet ckvs "schema" = some (.obj bs)) :
    (∀ bp br, hasKey bs "$ref" = false →
      dictGet bs "properties" = some (.obj bp) →
      dictGet bs "required" = some (.arr br) →
      extract_parameters (.obj okvs) path =
        Except.ok (ParamSchema.toJSON ⟨dictUpdate s1.props bp, s1.req ++ br⟩)) ∧
    (hasKey bs "$ref" = true →
      extract_parameters (.obj okvs) path =
        Except.ok (ParamSchema.toJSON ⟨dictSet s1.props "body"
          (.obj [("type", .str "object"),
                 ("description", .str "Request body (see OpenAPI spec for full schema)")]),
          s1.req⟩)) := by
  constructor
  · intro bp br hnoref hbp hbr
    rw [extract_parameters, hpp, except_bind_ok,
      bodyPhase_merge s1 hrb hct hjson hsch hnoref hbp hbr]
    rfl
  · intro href
    rw [extract_parameters, hpp, except_bind_ok,
      bodyPhase_ref s1 hrb hct hjson hsch href]
    rfl

/-- The C3 witness operation with a non-reference body schema. -/
def witnessBodyNoRef : List (String × JSON) :=
  [("requestBody", JSON.obj [("content", JSON.obj
    [("application/json", JSON.obj [("schema", JSON.obj
      [("properties", JSON.obj [("a", JSON.obj [("type", JSON.str "string")])]),
       ("required", JSON.arr [JSON.str "a"])])])])])]

/-- The C3 witness operation with a `$ref` body schema. -/
def witnessBodyRef : List (String × JSON) :=
  [("requestBody", JSON.obj [("content", JSON.obj
    [("application/json", JSON.obj [("schema", JSON.obj
      [("$ref", JSON.str "#/components/schemas/Pet")])])])])]

/-- Witness for C3: the merge case and the placeholder case on concrete
operations. -/
theorem extract_parameters_request_body_witness :
    strContains "application/json" "application/json" = true ∧
    extract_parameters (.obj witnessBodyNoRef) "/x" =
      Except.ok (ParamSchema.toJSON
        ⟨dictUpdate ([] : List (String × JSON))
            [("a", JSON.obj [("type", JSON.str "string")])],
          [] ++ [JSON.str "a"]⟩) ∧
    extract_parameters (.obj witnessBodyRef) "/x" =
      Except.ok (ParamSchema.toJSON
        ⟨dictSet ([] : List (String × JSON)) "body"
          (.obj [("type", .str "object"),
                 ("description", .str "Request body (see OpenAPI spec for full schema)")]),
          []⟩) := by
  refine ⟨rfl, ?_, ?_⟩
  · exact (extract_parameters_request_body witnessBodyNoRef _ _
      [("properties", JSON.obj [("a", JSON.obj [("type", JSON.str "string")])]),
       ("required", JSON.arr [JSON.str "a"])]
      "application/json" "/x" ⟨[], []⟩ rfl rfl rfl rfl rfl).1
      [("a", JSON.obj [("type", JSON.str "string")])] [JSON.str "a"] rfl rfl rfl
  · exact (extract_parameters_request_body witnessBodyRef _ _
      [("$ref", JSON.str "#/components/schemas/Pet")]
      "application/json" "/x" ⟨[], []⟩ rfl rfl rfl rfl rfl).2 rfl

/-- C1: when every tool POST succeeds and its response carries an
identifier, a normal registration run collects exactly one identifier per
valid operation, reports that count, and makes exactly one server-creation
POST whose associatedTools list is exactly the collected identifiers. -/
theorem register_all_success_counts {c : OpenAPIToMCP} {sp : String} {spec : JSON}
    {an : Option String} {net : Nat → NetResult} {snet : NetResult}
    {evs : List Event} {res : JSON}
    (h : register_openapi_spec c sp spec an net snet = (evs, Except.ok res))
    (hnet : ∀ k, (successId (net k)).isSome) :
    ∃ items ids,
      pathsItems spec = Except.ok items ∧
      ids.length = countValidOpsP items ∧
      (toolPosts evs).length = countValidOpsP items ∧
      (∃ fields, res = JSON.obj fields ∧
        dictGet fields "tool_ids" = some (.arr ids) ∧
        dictGet fields "tool_count" = some (.num ids.length)) ∧
      ∃ sname adesc,
        serverPosts evs =
          [Event.serverPost (c.gateway_url ++ "/servers") (serverPayload sname adesc ids)] := by
  obtain ⟨api_name, adesc, base_url, items, ids, sname, suuid,
    _hD, _hB, hPI, _hSN, hids, hfa, hsp, hres⟩ := register_ok_char h
  refine ⟨items, ids, hPI, ?_, ?_, ⟨_, hres, rfl, rfl⟩, sname, adesc, hsp⟩
  · rw [hids]
    exact collectIds_length_all_some net hnet _ 0
  · rw [← hfa.length_eq, validOpsP_length]

/-- Witness for C1: a run over one GET operation with an always-successful
oracle returns one identifier for one valid operation. -/
theorem register_all_success_counts_witness :
    (∀ k, (successId ((fun _ => NetResult.resp ⟨200, "", JSON.obj [("id", JSON.str "t")]⟩ :
        Nat → NetResult) k)).isSome) ∧
    ∃ (items : List (String × JSON)) (ids : List JSON),
      pathsItems (JSON.obj [("paths", JSON.obj [("/a", JSON.obj [("get", JSON.obj [])])])])
        = Except.ok items ∧
      ids.length = countValidOpsP items := by
  refine ⟨fun k => rfl, ?_⟩
  obtain ⟨items, ids, h1, h2, _⟩ :=
    @register_all_success_counts
      (OpenAPIToMCP.init "http://gw" "t") "s.yaml"
      (JSON.obj [("paths", JSON.obj [("/a", JSON.obj [("get", JSON.obj [])])])])
      none
      (fun _ => NetResult.resp ⟨200, "", JSON.obj [("id", JSON.str "t")]⟩)
      (NetResult.resp ⟨201, "", JSON.obj [("id", JSON.str "s")]⟩)
      _ _
      (by rfl) (fun k => rfl)
  exact ⟨items, ids, h1, h2⟩

/-- C2: a raised tool POST is caught: the run still returns normally, the
failing operation contributes no identifier, every valid operation is still
attempted (one tool POST each), and the single server POST carries exactly
the identifiers that succeeded. -/
theorem tool_failure_tolerated {c : OpenAPIToMCP} {sp : String} {spec : JSON}
    {an : Option String} {net : Nat → NetResult} {snet : NetResult}
    {evs : List Event} {res : JSON} (k : Nat) (items : List (String × JSON))
    (h : register_openapi_spec c sp spec an net snet = (evs, Except.ok res))
    (hPI : pathsItems spec = Except.ok items)
    (hk : k < countValidOpsP items)
    (hfail : postRaises (net k) = true) :
    successId (net k) = none ∧
    (toolPosts evs).length = countValidOpsP items ∧
    ∃ ids sname adesc,
      ids = collectIds net 0 (countValidOpsP items) ∧
      (∃ fields, res = JSON.obj fields ∧ dictGet fields "tool_ids" = some (.arr ids)) ∧
      serverPosts evs =
        [Event.serverPost (c.gateway_url ++ "/servers") (serverPayload sname adesc ids)] := by
  obtain ⟨api_name, adesc, base_url, items0, ids, sname, suuid,
    _hD, _hB, hPI0, _hSN, hids, hfa, hsp, hres⟩ := register_ok_char h
  have hit : items0 = items := by
    rw [hPI] at hPI0
    exact (Except.ok.inj hPI0).symm
  subst hit
  refine ⟨successId_none_of_postRaises hfail, ?_, ids, sname, adesc, hids, ⟨_, hres, rfl⟩, hsp⟩
  rw [← hfa.length_eq, validOpsP_length]

/-- Witness for C2: two GET operations; the first POST returns 500, the
second succeeds; the run still returns normally. -/
theorem tool_failure_tolerated_witness :
    postRaises ((fun j => if j = 0 then NetResult.resp ⟨500, "err", JSON.null⟩
        else NetResult.resp ⟨200, "", JSON.obj [("id", JSON.str "t1")]⟩) 0) = true ∧
    (0 : Nat) < countValidOpsP
      [("/a", JSON.obj [("get", JSON.obj [])]), ("/b", JSON.obj [("get", JSON.obj [])])] ∧
    successId ((fun j => if j = 0 then NetResult.resp ⟨500, "err", JSON.null⟩
        else NetResult.resp ⟨200, "", JSON.obj [("id", JSON.str "t1")]⟩) 0) = none := by
  refine ⟨rfl, by decide, ?_⟩
  exact (@tool_failure_tolerated
    (OpenAPIToMCP.init "http://gw" "t") "s.yaml"
    (JSON.obj [("paths", JSON.obj
      [("/a", JSON.obj [("get", JSON.obj [])]), ("/b", JSON.obj [("get", JSON.obj [])])])])
    none
    (fun j => if j = 0 then NetResult.resp ⟨500, "err", JSON.null⟩
        else NetResult.resp ⟨200, "", JSON.obj [("id", JSON.str "t1")]⟩)
    (NetResult.resp ⟨201, "", JSON.obj [("id", JSON.str "s")]⟩)
    _ _ 0
    [("/a", JSON.obj [("get", JSON.obj [])]), ("/b", JSON.obj [("get", JSON.obj [])])]
    (by rfl) rfl (by decide) rfl).1

/-- C7: in a normal run the tool POSTs correspond one for one, in
path/method iteration order, to the operations whose uppercased method is an
allowed verb, each POST carrying the tool dict derived from its operation;
and an entry with any other method key is skipped with no event at all. -/
theorem posts_match_operations_in_order {c : OpenAPIToMCP} {sp : String} {spec : JSON}
    {an : Option String} {net : Nat → NetResult} {snet : NetResult}
    {evs : List Event} {res : JSON}
    (h : register_openapi_spec c sp spec an net snet = (evs, Except.ok res)) :
    (∃ base_url items,
      specBaseUrl spec = Except.ok base_url ∧
      pathsItems spec = Except.ok items ∧
      List.Forall₂ (PostMatches c base_url) (validOpsP items) (toolPosts evs)) ∧
    (∀ (burl op : JSON) (path method : String) (st : List JSON × Nat),
      pyUpper method ∉ allowedMethods →
      procOp c burl net path method op st = ([], Except.ok st)) := by
  obtain ⟨api_name, adesc, base_url, items, ids, sname, suuid,
    _hD, hB, hPI, _hSN, _hids, hfa, _hsp, _hres⟩ := register_ok_char h
  exact ⟨⟨base_url, items, hB, hPI, hfa⟩,
    fun burl op path method st hm => procOp_skip c burl net path method op st hm⟩

/-- Witness for C7: a run containing a non-verb `x-ext` entry next to a GET;
the skipped entry produces no event. -/
theorem posts_match_operations_in_order_witness :
    (∃ base_url items,
      specBaseUrl (JSON.obj [("paths", JSON.obj
          [("/a", JSON.obj [("x-ext", JSON.str "meta"), ("get", JSON.obj [])])])])
        = Except.ok base_url ∧
      pathsItems (JSON.obj [("paths", JSON.obj
          [("/a", JSON.obj [("x-ext", JSON.str "meta"), ("get", JSON.obj [])])])])
        = Except.ok items) ∧
    procOp (OpenAPIToMCP.init "http://gw" "t") (JSON.str "http://b")
        (fun _ => NetResult.resp ⟨200, "", JSON.obj [("id", JSON.str "t")]⟩)
        "/a" "x-ext" (JSON.str "meta") ([], 0) = ([], Except.ok ([], 0)) := by
  have hrun := @posts_match_operations_in_order
    (OpenAPIToMCP.init "http://gw" "t") "s.yaml"
    (JSON.obj [("paths", JSON.obj
      [("/a", JSON.obj [("x-ext", JSON.str "meta"), ("get", JSON.obj [])])])])
    none
    (fun _ => NetResult.resp ⟨200, "", JSON.obj [("id", JSON.str "t")]⟩)
    (NetResult.resp ⟨201, "", JSON.obj [("id", JSON.str "s")]⟩)
    _ _
    (by rfl)
  obtain ⟨⟨base_url, items, h1, h2, _⟩, hskip⟩ := hrun
  exact ⟨⟨base_url, items, h1, h2⟩,
    hskip (JSON.str "http://b") (JSON.str "meta") "/a" "x-ext" ([], 0) (by decide)⟩

/-- C8: a successful tool POST whose dict response carries neither `id` nor
`tool_id` still contributes an embedded `None` to the identifier list, the
reported count counts it, and the server POST's associatedTools contains the
`None`. -/
theorem none_identifier_still_counted {c : OpenAPIToMCP} {sp : String} {spec : JSON}
    {an : Option String} {net : Nat → NetResult} {snet : NetResult}
    {evs : List Event} {res : JSON} (k : Nat) (items : List (String × JSON))
    (rr : HTTPResponse) (bkvs : List (String × JSON))
    (h : register_openapi_spec c sp spec an net snet = (evs, Except.ok res))
    (hPI : pathsItems spec = Except.ok items)
    (hk : k < countValidOpsP items)
    (hr : net k = .resp rr)
    (hok : httpError rr.status = false)
    (hbody : rr.jsonBody = .obj bkvs)
    (hid : hasKey bkvs "id" = false)
    (htid : hasKey bkvs "tool_id" = false) :
    successId (net k) = some JSON.null ∧
    ∃ ids,
      JSON.null ∈ ids ∧
      ids.length = (List.range' 0 (countValidOpsP items)).countP
        (fun j => (successId (net j)).isSome) ∧
      (∃ fields, res = JSON.obj fields ∧
        dictGet fields "tool_ids" = some (.arr ids) ∧
        dictGet fields "tool_count" = some (.num ids.length)) ∧
      ∃ sname adesc,
        serverPosts evs =
          [Event.serverPost (c.gateway_url ++ "/servers") (serverPayload sname adesc ids)] := by
  have hsid : successId (net k) = some JSON.null := by
    rw [hr, successId]
    simp only [hok, Bool.false_eq_true, if_false, hbody, pyGetNone, pyGetD,
      dictGet_eq_none_of_hasKey_false hid, dictGet_eq_none_of_hasKey_false htid,
      Option.getD_none]
    rfl
  obtain ⟨api_name, adesc, base_url, items0, ids, sname, suuid,
    _hD, _hB, hPI0, _hSN, hids, hfa, hsp, hres⟩ := register_ok_char h
  have hit : items0 = items := by
    rw [hPI] at hPI0
    exact (Except.ok.inj hPI0).symm
  subst hit
  refine ⟨hsid, ids, ?_, ?_, ⟨_, hres, rfl, rfl⟩, sname, adesc, hsp⟩
  · rw [hids]
    exact mem_collectIds hk hsid
  · rw [hids]
    exact collectIds_length_countP net _ 0

/-- Witness for C8: a single operation whose POST returns 200 with an empty
dict body; the embedded `None` is collected. -/
theorem none_identifier_still_counted_witness :
    hasKey ([] : List (String × JSON)) "id" = false ∧
    (0 : Nat) < countValidOpsP [("/a", JSON.obj [("get", JSON.obj [])])] ∧
    successId ((fun _ => NetResult.resp ⟨200, "", JSON.obj []⟩ : Nat → NetResult) 0)
      = some JSON.null := by
  refine ⟨rfl, by decide, ?_⟩
  exact (@none_identifier_still_counted
    (OpenAPIToMCP.init "http://gw" "t") "s.yaml"
    (JSON.obj [("paths", JSON.obj [("/a", JSON.obj [("get", JSON.obj [])])])])
    none
    (fun _ => NetResult.resp ⟨200, "", JSON.obj []⟩)
    (NetResult.resp ⟨201, "", JSON.obj [("id", JSON.str "s")]⟩)
    _ _ 0
    [("/a", JSON.obj [("get", JSON.obj [])])]
    ⟨200, "", JSON.obj []⟩ []
    (by rfl) rfl (by decide) rfl rfl rfl rfl rfl).1

end ForgeStudio
